import Mathlib

/-!
# cjdns `subnode/SupernodeHunter.c`: a shallow embedding

The engine state `struct SupernodeHunter_pvt` becomes a record, the C functions
become state-passing functions on it.  Machine integers are natural numbers; the
two `uint32_t` cursors wrap explicitly modulo `2 ^ 32`.  Allocators, logging and
`Identity` checks carry no state that the functions read back and are left out.

Collaborators whose source is not among the files at hand are either modelled from
the specification (address sets, address comparison, dictionaries) or, where the
specification treats them as opaque (parsers, key stringification, platform and
header constants), collected as fields of `Ext` and taken as a parameter.
-/

namespace SupernodeHunter

/-- Binary-safe byte strings (`String*`, `uint8_t*`), one number per byte. -/
abbrev Bytes := List Nat

/-- Bytes of a C string literal. -/
def cstr (s : String) : Bytes := s.toList.map Char.toNat

/-- Modelled from the spec: `struct Address` (dht/Address.h is not among the sources):
an overlay address made of a raw network-layer identifier (`ip6.bytes`), an overlay
key and a routing path/label (`uint64_t path`). -/
structure Address where
  protocolVersion : Nat
  ip6 : Bytes
  key : Bytes
  path : Nat
deriving DecidableEq, Repr

/-- Modelled from the spec: `Address_isSame` (dht/Address.c is not among the sources),
"same full identity": equal overlay key and equal routing path/label. -/
def Address_isSame (a b : Address) : Bool :=
  decide (a.key = b.key) && decide (a.path = b.path)

/-- Modelled from the spec: `Address_isSameIp` (dht/Address.c is not among the sources),
"same raw address": compares only the network-layer identifier bytes. -/
def Address_isSameIp (a b : Address) : Bool :=
  decide (a.ip6 = b.ip6)

/-- Modelled from the spec: `struct Sockaddr` (util/platform/Sockaddr.h is not among the
sources): an address family together with the raw address bytes. -/
structure Sockaddr where
  family : Int
  address : Bytes
deriving DecidableEq, Repr

/-- Modelled from the spec: `Sockaddr_getFamily` (util/platform/Sockaddr.c is not among the
sources), the address family of a socket address. -/
def Sockaddr_getFamily (sa : Sockaddr) : Int := sa.family

/-- Modelled from the spec: `Sockaddr_compare` (util/platform/Sockaddr.c is not among the
sources), zero exactly when the two socket addresses are equal. -/
def Sockaddr_compare (a b : Sockaddr) : Int := if a = b then 0 else 1

/-- Modelled from the spec: `Sockaddr_getAddress` (util/platform/Sockaddr.c is not among the
sources): the length of the raw address and the raw address bytes. -/
def Sockaddr_getAddress (sa : Sockaddr) : Int × Bytes := (sa.address.length, sa.address)

/-- Modelled from the spec: `Sockaddr_clone` (util/platform/Sockaddr.c is not among the
sources): a copy, which under value semantics is the value itself. -/
def Sockaddr_clone (sa : Sockaddr) : Sockaddr := sa

/-- Modelled from the spec: `Bits_memcmp` (util/Bits.h is not among the sources) on the first
`n` bytes; only whether the result is zero is used. -/
def Bits_memcmp (a b : Bytes) (n : Nat) : Int := if a.take n = b.take n then 0 else 1

/-- Modelled from the spec: `struct AddrSet` (subnode/AddrSet.c is not among the sources):
an order-preserving collection of addresses with add, get-by-index, length and flush. -/
abbrev AddrSet := List Address

/-- Modelled from the spec: `AddrSet_add` (subnode/AddrSet.c is not among the sources): the
pools are append-only, the most recently added address is at the last index. -/
def AddrSet_add (s : AddrSet) (a : Address) : AddrSet := s ++ [a]

/-- Modelled from the spec: `AddrSet_flush` (subnode/AddrSet.c is not among the sources):
clears the pool entirely. -/
def AddrSet_flush (_s : AddrSet) : AddrSet := []

/-- Modelled from the spec: `AddrSet_get` (subnode/AddrSet.c is not among the sources):
the address at an index below the length. -/
def AddrSet_get (s : AddrSet) (i : Nat) (h : i < s.length) : Address := s.get ⟨i, h⟩

/-- Modelled from the spec: `Dict` (benc/Dict.h is not among the sources): a mapping from
string keys to string values. -/
abbrev Dict := List (String × Bytes)

/-- Modelled from the spec: `Dict_new` (benc/Dict.h is not among the sources). -/
def Dict_new : Dict := []

/-- Modelled from the spec: `Dict_getStringC` (benc/Dict.h is not among the sources): the
string stored under a key, if any. -/
def Dict_getStringC (d : Dict) (k : String) : Option Bytes := d.lookup k

/-- Modelled from the spec: `Dict_putStringC` (benc/Dict.h is not among the sources): stores
a string under a key, replacing what was there. -/
def Dict_putStringC (d : Dict) (k : String) (v : Bytes) : Dict :=
  (k, v) :: d.filter (fun e => e.1 != k)

/-- Modelled from the spec: `Dict_putStringCC` (benc/Dict.h is not among the sources): as
`Dict_putStringC`, the value given as a C string literal. -/
def Dict_putStringCC (d : Dict) (k : String) (v : String) : Dict :=
  Dict_putStringC d k (cstr v)

/-- Constants and functions declared outside the files at hand and opaque in the
specification, taken as parameters of the embedding. -/
structure Ext where
  /-- Platform value of the IPv6 address family. -/
  Sockaddr_AF_INET6 : Int
  /-- Header constant returned by `SupernodeHunter_addSnode` for a wrong family. -/
  SupernodeHunter_addSnode_INVALID_FAMILY : Int
  /-- Header constant returned by `SupernodeHunter_addSnode` for a stored address. -/
  SupernodeHunter_addSnode_EXISTS : Int
  /-- Header constant returned by `SupernodeHunter_removeSnode` for an unknown address. -/
  SupernodeHunter_removeSnode_NONEXISTANT : Int
  /-- The path parser: `none` for a nonzero return, `some label` for zero. -/
  AddrTools_parsePath : Bytes → Option Nat
  /-- The node-list decoder called with the responder and the reply: `none` for NULL. -/
  ReplySerializer_parse : Address → Dict → Option (List Address)
  /-- The printable form of an overlay key. -/
  Key_stringify : Bytes → Bytes

/-- The constant `SupernodeHunter_pvt_nodes_MAX`. -/
def SupernodeHunter_pvt_nodes_MAX : Nat := 64

/-- The constant `SupernodeHunter_pvt_snodeCandidates_MAX`. -/
def SupernodeHunter_pvt_snodeCandidates_MAX : Nat := 8

/-- The engine state `struct SupernodeHunter_pvt`; `snodes` is `pub.snodes`, an entry of
`snodeAddrs` is the `sa` of a `struct AllocSockaddr`. -/
structure SupernodeHunter_pvt where
  snodes : AddrSet
  snodeAddrs : List Sockaddr
  peers : AddrSet
  nodes : AddrSet
  snodeCandidates : AddrSet
  nodeListIndex : Nat
  snodeAddrIdx : Nat
  myAddress : Address
  selfKeyStr : Bytes
deriving DecidableEq, Repr

/-- The per-request context `struct Query`. -/
structure Query where
  searchTar : Option Sockaddr
  isGetRoute : Bool
deriving DecidableEq, Repr

/-- The fields of `struct MsgCore_Promise` that the engine writes and reads back. -/
structure MsgCore_Promise where
  target : Address
  msg : Dict
  userData : Query
deriving DecidableEq, Repr

/-- How a call of a C function ends: it returns, an `Assert_true` fails, or it is still
running when the step budget is used up. -/
inductive Outcome (α : Type) where
  | returned (a : α)
  | assertFailed
  | running
deriving DecidableEq, Repr

/-- What a call returned, if it did. -/
def Outcome.toOption {α : Type} : Outcome α → Option α
  | .returned a => some a
  | .assertFailed => none
  | .running => none

/-- The search loop of `snodeIndexOf` from index `i` on. -/
def snodeIndexOf_from (udpAddr : Sockaddr) : List Sockaddr → Nat → Int
  | [], _ => -1
  | sa :: rest, i =>
    if Sockaddr_compare sa udpAddr = 0 then (i : Int)
    else snodeIndexOf_from udpAddr rest (i + 1)

/-- The function `snodeIndexOf`: index of the first stored entry comparing equal, or -1. -/
def snodeIndexOf (snp : SupernodeHunter_pvt) (udpAddr : Sockaddr) : Int :=
  snodeIndexOf_from udpAddr snp.snodeAddrs 0

/-- The function `SupernodeHunter_addSnode`: return value and state afterwards.
`ArrayList_OfSnodeAddrs_add` (util/ArrayList.h is not among the sources) puts the new entry
behind the stored ones. -/
def SupernodeHunter_addSnode (X : Ext) (snp : SupernodeHunter_pvt) (udpAddr : Sockaddr) :
    Int × SupernodeHunter_pvt :=
  if Sockaddr_getFamily udpAddr ≠ X.Sockaddr_AF_INET6 then
    (X.SupernodeHunter_addSnode_INVALID_FAMILY, snp)
  else if snodeIndexOf snp udpAddr ≠ -1 then
    (X.SupernodeHunter_addSnode_EXISTS, snp)
  else
    (0, { snp with snodeAddrs := snp.snodeAddrs ++ [Sockaddr_clone udpAddr] })

/-- The function `SupernodeHunter_listSnodes`: return value and the array written to `outP`. -/
def SupernodeHunter_listSnodes (snp : SupernodeHunter_pvt) : Int × List Sockaddr :=
  ((snp.snodeAddrs.length : Int), snp.snodeAddrs)

/-- The function `SupernodeHunter_removeSnode`: return value and state afterwards.
`ArrayList_OfSnodeAddrs_remove` (util/ArrayList.h is not among the sources) takes the entry
at the index out and keeps the other entries in their order. -/
def SupernodeHunter_removeSnode (X : Ext) (snp : SupernodeHunter_pvt) (toRemove : Sockaddr) :
    Int × SupernodeHunter_pvt :=
  let idx := snodeIndexOf snp toRemove
  if idx = -1 then (X.SupernodeHunter_removeSnode_NONEXISTANT, snp)
  else (0, { snp with snodeAddrs := snp.snodeAddrs.eraseIdx idx.toNat })

/-- The `for` loop at the end of `onReply` over the parsed node list; `none` when the
`Assert_true` on the search target's address length fails. -/
def onReply_results (q : Query) : SupernodeHunter_pvt → List Address →
    Option SupernodeHunter_pvt
  | snp, [] => some snp
  | snp, elem :: rest =>
    match q.searchTar with
    | none =>
      if Address_isSameIp elem snp.myAddress then onReply_results q snp rest
      else
        let nodes :=
          if snp.nodes.length ≥ SupernodeHunter_pvt_nodes_MAX then AddrSet_flush snp.nodes
          else snp.nodes
        onReply_results q { snp with nodes := AddrSet_add nodes elem } rest
    | some searchTar =>
      if (Sockaddr_getAddress searchTar).1 ≠ 16 then none
      else if Bits_memcmp elem.ip6 (Sockaddr_getAddress searchTar).2 16 = 0 then
        let cands :=
          if snp.snodeCandidates.length ≥ SupernodeHunter_pvt_snodeCandidates_MAX then
            AddrSet_flush snp.snodeCandidates
          else snp.snodeCandidates
        onReply_results q { snp with snodeCandidates := AddrSet_add cands elem } rest
      else onReply_results q snp rest

/-- The part of `onReply` from `ReplySerializer_parse` on, entered with the responder as it
is at that point. -/
def onReply_parse (X : Ext) (snp : SupernodeHunter_pvt) (msg : Dict) (src : Address)
    (q : Query) : Option SupernodeHunter_pvt :=
  match X.ReplySerializer_parse src msg with
  | none => some snp
  | some results => onReply_results q snp results

/-- The callback `onReply`: `src = none` is the timeout call with a NULL responder; the result
is the state afterwards, `none` when an `Assert_true` fails. -/
def onReply (X : Ext) (snp : SupernodeHunter_pvt) (msg : Dict) (src : Option Address)
    (prom : MsgCore_Promise) : Option SupernodeHunter_pvt :=
  let q := prom.userData
  match src with
  | none => some snp
  | some src =>
    if q.isGetRoute then
      match Dict_getStringC msg "error" with
      | some _ => some snp
      | none =>
        match Dict_getStringC msg "label" with
        | none => some snp
        | some labelS =>
          match (if labelS.length ≠ 20 then none else X.AddrTools_parsePath labelS) with
          | none => some snp
          | some label =>
            if src.path = label ∧ Address_isSame src prom.target = true then
              onReply_parse X { snp with snodes := AddrSet_add snp.snodes src } msg src q
            else
              let src1 : Address := { src with path := label }
              onReply_parse X
                { snp with snodeCandidates := AddrSet_add snp.snodeCandidates src1 } msg src1 q
    else onReply_parse X snp msg src q

/-- The `for (;;)` loop of `pingCycle` with a budget of iterations: from the offset `idx`
and the supernode cursor it yields the chosen target and the cursor afterwards, `none` when
the budget is used up before a `break`.  `idx` is never negative: each subtraction happens
only after the comparison with the same length failed. -/
def pingCycle_loop (peers nodes : AddrSet) : Nat → Nat → Nat → Option (Address × Nat)
  | 0, _, _ => none
  | fuel + 1, idx, snodeAddrIdx =>
    if h : idx < peers.length then some (AddrSet_get peers idx h, snodeAddrIdx)
    else
      let idx1 := idx - peers.length
      if h1 : idx1 < nodes.length then some (AddrSet_get nodes idx1 h1, snodeAddrIdx)
      else pingCycle_loop peers nodes fuel (idx1 - nodes.length) ((snodeAddrIdx + 1) % 2 ^ 32)

/-- The timer callback `pingCycle` with a budget of loop iterations: the state afterwards
and the queries created through `MsgCore_createQuery`, each as it is when the function
returns. -/
def pingCycle (X : Ext) (fuel : Nat) (snp : SupernodeHunter_pvt) :
    Outcome (SupernodeHunter_pvt × List MsgCore_Promise) :=
  if snp.snodes.length > 1 then .returned (snp, [])
  else if hreg : snp.snodeAddrs.length = 0 then .returned (snp, [])
  else
    let msg := Dict_new
    if hc : snp.snodeCandidates.length ≠ 0 then
      let target := AddrSet_get snp.snodeCandidates (snp.snodeCandidates.length - 1)
        (Nat.sub_lt (Nat.pos_of_ne_zero hc) Nat.one_pos)
      let msg := Dict_putStringCC msg "q" "gr"
      let msg := Dict_putStringC msg "src" snp.selfKeyStr
      let msg := Dict_putStringC msg "tar" (X.Key_stringify target.key)
      .returned (snp, [{ target := target, msg := msg,
                         userData := { searchTar := none, isGetRoute := true } }])
    else
      let isGetPeers : Bool := snp.nodeListIndex &&& 1 != 0
      let idx := snp.nodeListIndex >>> 1
      let nodeListIndex := (snp.nodeListIndex + 1) % 2 ^ 32
      match pingCycle_loop snp.peers snp.nodes fuel idx snp.snodeAddrIdx with
      | none => .running
      | some (target, snodeAddrIdx) =>
        let snp1 := { snp with nodeListIndex := nodeListIndex, snodeAddrIdx := snodeAddrIdx }
        let desiredSnode := snp.snodeAddrs.get
          ⟨snodeAddrIdx % snp.snodeAddrs.length, Nat.mod_lt _ (Nat.pos_of_ne_zero hreg)⟩
        if isGetPeers then
          let msg := Dict_putStringCC msg "q" "gp"
          let msg := Dict_putStringC msg "tar" [0, 0, 0, 0, 0, 0, 0, 1]
          .returned (snp1, [{ target := target, msg := msg,
                              userData := { searchTar := none, isGetRoute := false } }])
        else
          let searchTar := Sockaddr_clone desiredSnode
          let msg := Dict_putStringCC msg "q" "fn"
          if (Sockaddr_getAddress desiredSnode).1 ≠ 16 then .assertFailed
          else
            let msg := Dict_putStringC msg "tar" ((Sockaddr_getAddress desiredSnode).2.take 16)
            .returned (snp1, [{ target := target, msg := msg,
                                userData := { searchTar := some searchTar,
                                              isGetRoute := false } }])

/-- The constructor `SupernodeHunter_new`: the state it leaves behind (the timer that calls
`pingCycle` every `CYCLE_MS` is the scheduler's business). -/
def SupernodeHunter_new (X : Ext) (peers : AddrSet) (myAddress : Address) :
    SupernodeHunter_pvt :=
  { snodes := [], snodeAddrs := [], peers := peers, nodes := [], snodeCandidates := [],
    nodeListIndex := 0, snodeAddrIdx := 0, myAddress := myAddress,
    selfKeyStr := X.Key_stringify myAddress.key }

/-- A run of `n` consecutive timer callbacks with no reply and no registry change in
between, every callback with the same budget of loop iterations: the state afterwards and
the queries created, oldest first. -/
def pingCycles (X : Ext) (fuel : Nat) : Nat → SupernodeHunter_pvt →
    Outcome (SupernodeHunter_pvt × List MsgCore_Promise)
  | 0, snp => .returned (snp, [])
  | n + 1, snp =>
    match pingCycle X fuel snp with
    | .returned (snp1, qs) =>
      match pingCycles X fuel n snp1 with
      | .returned (snp2, qs2) => .returned (snp2, qs ++ qs2)
      | .assertFailed => .assertFailed
      | .running => .running
    | .assertFailed => .assertFailed
    | .running => .running

/-- Engine states that can arise: the constructed state, and from there timer callbacks
that return, reply callbacks that return (with any payload, responder and pending query),
registry changes through the public functions, and changes of the peer set, which its
owner makes from outside. -/
inductive Reachable (X : Ext) : SupernodeHunter_pvt → Prop where
  | constructed (peers : AddrSet) (myAddress : Address) :
      Reachable X (SupernodeHunter_new X peers myAddress)
  | onCycle {snp snp1 : SupernodeHunter_pvt} (fuel : Nat) (qs : List MsgCore_Promise) :
      Reachable X snp → pingCycle X fuel snp = .returned (snp1, qs) → Reachable X snp1
  | onReply {snp snp1 : SupernodeHunter_pvt} (msg : Dict) (src : Option Address)
      (prom : MsgCore_Promise) :
      Reachable X snp → onReply X snp msg src prom = some snp1 → Reachable X snp1
  | addSnode {snp : SupernodeHunter_pvt} (udpAddr : Sockaddr) :
      Reachable X snp → Reachable X (SupernodeHunter_addSnode X snp udpAddr).2
  | removeSnode {snp : SupernodeHunter_pvt} (toRemove : Sockaddr) :
      Reachable X snp → Reachable X (SupernodeHunter_removeSnode X snp toRemove).2
  | peersChanged {snp : SupernodeHunter_pvt} (peers : AddrSet) :
      Reachable X snp → Reachable X { snp with peers := peers }

/-- The total advance of the supernode cursor over the first `n` cycles of a run that
starts with the traversal cursor at zero, the pools holding `L` addresses together. -/
def cursorAdvance (L : Nat) : Nat → Nat
  | 0 => 0
  | n + 1 => cursorAdvance L n + ((n % 2 ^ 32) >>> 1) / L

/-! ## Sample data used to evaluate the embedding on concrete inputs -/

namespace Sample

/-- Value of a lower-case hexadecimal digit given by its character code. -/
def hexVal (c : Nat) : Option Nat :=
  if 48 ≤ c ∧ c ≤ 57 then some (c - 48)
  else if 97 ≤ c ∧ c ≤ 102 then some (c - 87)
  else none

/-- Value of a run of hexadecimal digits, most significant first. -/
def hexNum : List Nat → Option Nat
  | [] => some 0
  | c :: rest =>
    match hexVal c, hexNum rest with
    | some v, some r => some (v * 16 ^ rest.length + r)
    | _, _ => none

/-- A path parser for the sample collaborators: accepts 20 bytes of the shape
`xxxx.xxxx.xxxx.xxxx` followed by one more byte. -/
def parsePath (b : Bytes) : Option Nat :=
  match b with
  | [a0, a1, a2, a3, d1, b0, b1, b2, b3, d2, c0, c1, c2, c3, d3, e0, e1, e2, e3, _] =>
    if d1 = 46 ∧ d2 = 46 ∧ d3 = 46 then
      hexNum [a0, a1, a2, a3, b0, b1, b2, b3, c0, c1, c2, c3, e0, e1, e2, e3]
    else none
  | _ => none

/-- Sample collaborators: the node-list decoder yields `results` for a reply that has an
`n` entry and nothing (NULL) for a reply without one. -/
def ext (results : List Address) : Ext :=
  { Sockaddr_AF_INET6 := 10
    SupernodeHunter_addSnode_INVALID_FAMILY := -2
    SupernodeHunter_addSnode_EXISTS := -1
    SupernodeHunter_removeSnode_NONEXISTANT := -1
    AddrTools_parsePath := parsePath
    ReplySerializer_parse := fun _ msg =>
      if (Dict_getStringC msg "n").isSome then some results else none
    Key_stringify := fun k => k }

/-- The engine's own address. -/
def me : Address := { protocolVersion := 20, ip6 := List.replicate 16 1,
                      key := List.replicate 32 1, path := 1 }

/-- A directly connected peer. -/
def peer : Address := { protocolVersion := 20, ip6 := List.replicate 16 2,
                        key := List.replicate 32 2, path := 19 }

/-- Three authorized supernodes of the IPv6 family. -/
def snodeA : Sockaddr := { family := 10, address := List.replicate 16 252 }

/-- The second authorized supernode. -/
def snodeB : Sockaddr := { family := 10, address := List.replicate 16 253 }

/-- The third authorized supernode. -/
def snodeC : Sockaddr := { family := 10, address := List.replicate 16 254 }

/-- An address of another family. -/
def inet4 : Sockaddr := { family := 2, address := [127, 0, 0, 1] }

/-- The supernode `snodeA` as the overlay reports it over the path `p`. -/
def found (p : Nat) : Address := { protocolVersion := 20, ip6 := List.replicate 16 252,
                                   key := List.replicate 32 7, path := p }

/-- The label text `0000.0000.0000.0099` with its terminating byte. -/
def label99 : Bytes := cstr "0000.0000.0000.0099" ++ [0]

/-- The label text `0000.0000.0000.0015` with its terminating byte. -/
def label15 : Bytes := cstr "0000.0000.0000.0015" ++ [0]

/-- Collaborators whose node-list decoder reports the supernode `snodeA` once. -/
def ext1 : Ext := ext [found 21]

/-- Collaborators whose node-list decoder reports the supernode `snodeA` over eight paths. -/
def ext8 : Ext := ext [found 21, found 22, found 23, found 24, found 25, found 26, found 27,
  found 28]

/-- A constructed engine with one peer, after `snodeA` was authorized. -/
def hunter1 : SupernodeHunter_pvt :=
  (SupernodeHunter_addSnode ext1 (SupernodeHunter_new ext1 [peer] me) snodeA).2

/-- The state `hunter1` after its first timer callback. -/
def hunter2 : SupernodeHunter_pvt := { hunter1 with nodeListIndex := 1 }

/-- The findNode query that the first timer callback creates. -/
def fnQuery : MsgCore_Promise :=
  { target := peer
    msg := [("tar", List.replicate 16 252), ("q", cstr "fn")]
    userData := { searchTar := some snodeA, isGetRoute := false } }

/-- A findNode reply carrying a node list and an `error` entry. -/
def fnReplyWithError : Dict := [("error", cstr "none"), ("n", [])]

/-- A findNode reply carrying a node list. -/
def fnReply : Dict := [("n", [])]

/-- The state `hunter2` with the supernode found once. -/
def hunter3 : SupernodeHunter_pvt := { hunter2 with snodeCandidates := [found 21] }

/-- The getRoute query to the candidate `found p`. -/
def grQuery (p : Nat) : MsgCore_Promise :=
  { target := found p
    msg := [("tar", List.replicate 32 7), ("src", List.replicate 32 1), ("q", cstr "gr")]
    userData := { searchTar := none, isGetRoute := true } }

/-- A getRoute reply with the label `0000.0000.0000.0015` and no node list. -/
def grReply15 : Dict := [("label", label15)]

/-- A getRoute reply with the label `0000.0000.0000.0099` and no node list. -/
def grReply99 : Dict := [("label", label99)]

/-- The state `hunter3` with the supernode confirmed. -/
def hunter4 : SupernodeHunter_pvt := { hunter3 with snodes := [found 21] }

/-- The state `hunter2` with the supernode found over eight paths. -/
def hunter8 : SupernodeHunter_pvt :=
  { hunter2 with snodeCandidates := [found 21, found 22, found 23, found 24, found 25,
      found 26, found 27, found 28] }

/-- The state `hunter8` with a ninth candidate. -/
def hunter9 : SupernodeHunter_pvt :=
  { hunter2 with snodeCandidates := [found 21, found 22, found 23, found 24, found 25,
      found 26, found 27, found 28, found 153] }

/-- A constructed engine with one peer, after `snodeA`, `snodeB` and `snodeC` were
authorized in this order. -/
def hunterABC : SupernodeHunter_pvt :=
  (SupernodeHunter_addSnode ext1 (SupernodeHunter_addSnode ext1 hunter1 snodeB).2 snodeC).2

/-- An engine state with two confirmed supernodes. -/
def hunterSteady : SupernodeHunter_pvt :=
  { hunter3 with snodes := [found 21, found 22] }

/-- Collaborators whose node-list decoder reports the supernode `snodeA` over two paths. -/
def ext2 : Ext := ext [found 21, found 22]

/-- A getRoute reply with the label `0000.0000.0000.0015` and an `error` entry. -/
def grReplyWithError : Dict := [("error", cstr "not_found"), ("label", label15)]

/-- A getPeers query to the peer. -/
def gpQuery : MsgCore_Promise :=
  { target := peer
    msg := [("tar", [0, 0, 0, 0, 0, 0, 0, 1]), ("q", cstr "gp")]
    userData := { searchTar := none, isGetRoute := false } }

end Sample

end SupernodeHunter

/-!
# cjdns `crypto/random/seed/SystemRandomSeed.c`: a shallow embedding

An array of provider pointers is a list of cells, a NULL pointer being `none`; a read or
write at an index outside the array is reported, not performed.
-/

namespace SystemRandomSeed

/-- A seed provider (`RandomSeed_Provider`, a function pointer): the five that the file
includes by name, any other by a number. -/
inductive RandomSeed_Provider where
  | RtlGenRandomSeed_new
  | BsdKernArndSysctlRandomSeed_new
  | DevUrandomRandomSeed_new
  | LinuxRandomUuidSysctlRandomSeed_new
  | ProcSysKernelRandomUuidRandomSeed_new
  | other (id : Nat)
deriving DecidableEq, Repr

/-- The table `PROVIDERS`. -/
def PROVIDERS : List RandomSeed_Provider :=
  [ .RtlGenRandomSeed_new,
    .BsdKernArndSysctlRandomSeed_new,
    .DevUrandomRandomSeed_new,
    .LinuxRandomUuidSysctlRandomSeed_new,
    .ProcSysKernelRandomUuidRandomSeed_new ]

/-- The constant `PROVIDERS_COUNT`. -/
def PROVIDERS_COUNT : Nat := 5

/-- An array of provider pointers. -/
abbrev ProviderArray := List (Option RandomSeed_Provider)

/-- How a piece of `SystemRandomSeed_new` ends: it is done, it reaches outside an array, or
it is still running when the step budget is used up. -/
inductive Run (α : Type) where
  | done (a : α)
  | outOfBounds
  | running
deriving DecidableEq, Repr

/-- The first loop of `SystemRandomSeed_new`,
`for (int i = 0; additionalProviders[i]; i++) providerCount++`, from `i` on. -/
def countLoop (additionalProviders : ProviderArray) : Nat → Nat → Nat → Run Nat
  | 0, _, _ => .running
  | fuel + 1, i, providerCount =>
    match additionalProviders[i]? with
    | none => .outOfBounds
    | some none => .done providerCount
    | some (some _) => countLoop additionalProviders fuel (i + 1) (providerCount + 1)

/-- The second loop of `SystemRandomSeed_new`,
`for (int j = 0; allProviders[j];) allProviders[i++] = additionalProviders[j++]`: the array
and `i` afterwards. -/
def copyAdditionalLoop (additionalProviders : ProviderArray) :
    Nat → ProviderArray → Nat → Nat → Run (ProviderArray × Nat)
  | 0, _, _, _ => .running
  | fuel + 1, allProviders, i, j =>
    match allProviders[j]? with
    | none => .outOfBounds
    | some none => .done (allProviders, i)
    | some (some _) =>
      match additionalProviders[j]? with
      | none => .outOfBounds
      | some v =>
        if i < allProviders.length then
          copyAdditionalLoop additionalProviders fuel (allProviders.set i v) (i + 1) (j + 1)
        else .outOfBounds

/-- The third loop of `SystemRandomSeed_new`,
`for (int j = 0; j < PROVIDERS_COUNT; j++) allProviders[i++] = PROVIDERS[j++]`: the array
afterwards.  `j` is incremented in the body and again in the loop header. -/
def copyBuiltinLoop : Nat → ProviderArray → Nat → Nat → Run ProviderArray
  | 0, _, _, _ => .running
  | fuel + 1, allProviders, i, j =>
    if j < PROVIDERS_COUNT then
      match PROVIDERS[j]? with
      | none => .outOfBounds
      | some v =>
        if i < allProviders.length then
          copyBuiltinLoop fuel (allProviders.set i (some v)) (i + 1) (j + 1 + 1)
        else .outOfBounds
    else .done allProviders

/-- The function `SystemRandomSeed_new` up to its call of `RandomSeed_new`: the array
`allProviders` handed over.  `additionalProviders` is `none` for a NULL argument;
`Allocator_calloc` yields `providerCount` zeroed cells. -/
def SystemRandomSeed_new (fuel : Nat) (additionalProviders : Option ProviderArray) :
    Run ProviderArray :=
  let counted : Run Nat :=
    match additionalProviders with
    | some ap => countLoop ap fuel 0 PROVIDERS_COUNT
    | none => .done PROVIDERS_COUNT
  match counted with
  | .outOfBounds => .outOfBounds
  | .running => .running
  | .done providerCount =>
    let allProviders : ProviderArray := List.replicate providerCount none
    let copied : Run (ProviderArray × Nat) :=
      match additionalProviders with
      | some ap => copyAdditionalLoop ap fuel allProviders 0 0
      | none => .done (allProviders, 0)
    match copied with
    | .outOfBounds => .outOfBounds
    | .running => .running
    | .done (allProviders1, i) => copyBuiltinLoop fuel allProviders1 i 0

/-- The cells of a NULL-terminated array holding the given providers. -/
def nullTerminated (l : List RandomSeed_Provider) : ProviderArray := l.map some ++ [none]

end SystemRandomSeed

namespace SupernodeHunter

/-! ## The traversal loop of `pingCycle` -/

/-- One iteration of the loop that does not reach a `break`. -/
theorem pingCycle_loop_succ_of_ge (peers nodes : AddrSet) (fuel idx sidx : Nat)
    (h : peers.length + nodes.length ≤ idx) :
    pingCycle_loop peers nodes (fuel + 1) idx sidx
      = pingCycle_loop peers nodes fuel (idx - peers.length - nodes.length)
          ((sidx + 1) % 2 ^ 32) := by
  have h1 : ¬ idx < peers.length := by omega
  have h2 : ¬ idx - peers.length < nodes.length := by omega
  rw [pingCycle_loop, dif_neg h1]
  exact dif_neg h2

/-- With both pools empty the loop never reaches a `break`, whatever the budget. -/
theorem pingCycle_loop_empty (fuel idx sidx : Nat) :
    pingCycle_loop [] [] fuel idx sidx = none := by
  induction fuel generalizing idx sidx with
  | zero => rfl
  | succ n ih =>
    rw [pingCycle_loop_succ_of_ge [] [] n idx sidx (Nat.zero_le _)]
    exact ih _ _

/-- With a non-empty combined pool and a budget above `idx / L` the loop breaks at element
`idx % L` of `peers ++ nodes`, having advanced the supernode cursor `idx / L` times. -/
theorem pingCycle_loop_spec (peers nodes : AddrSet) (hL : 0 < peers.length + nodes.length)
    (fuel idx sidx : Nat) (hs : sidx < 2 ^ 32)
    (hfuel : idx / (peers.length + nodes.length) < fuel) :
    ∃ t, (peers ++ nodes)[idx % (peers.length + nodes.length)]? = some t ∧
      pingCycle_loop peers nodes fuel idx sidx
        = some (t, (sidx + idx / (peers.length + nodes.length)) % 2 ^ 32) := by
  induction fuel generalizing idx sidx with
  | zero => exact absurd hfuel (Nat.not_lt_zero _)
  | succ n ih =>
    by_cases hlt : idx < peers.length + nodes.length
    · have hdiv : idx / (peers.length + nodes.length) = 0 := Nat.div_eq_of_lt hlt
      have hzero : (sidx + 0) % 2 ^ 32 = sidx := Nat.mod_eq_of_lt hs
      rw [Nat.mod_eq_of_lt hlt, hdiv, hzero]
      by_cases h : idx < peers.length
      · refine ⟨peers.get ⟨idx, h⟩, ?_, ?_⟩
        · rw [List.getElem?_append_left h, List.getElem?_eq_getElem h]
          rfl
        · rw [pingCycle_loop, dif_pos h]
          rfl
      · have h1 : idx - peers.length < nodes.length := by omega
        refine ⟨nodes.get ⟨idx - peers.length, h1⟩, ?_, ?_⟩
        · rw [List.getElem?_append_right (Nat.le_of_not_lt h), List.getElem?_eq_getElem h1]
          rfl
        · rw [pingCycle_loop, dif_neg h]
          exact dif_pos h1
    · have hge : peers.length + nodes.length ≤ idx := Nat.le_of_not_lt hlt
      rw [pingCycle_loop_succ_of_ge peers nodes n idx sidx hge]
      have hdiv : idx / (peers.length + nodes.length)
          = (idx - peers.length - nodes.length) / (peers.length + nodes.length) + 1 := by
        rw [Nat.sub_sub, ← Nat.div_eq_sub_div hL hge]
      have hmod : idx % (peers.length + nodes.length)
          = (idx - peers.length - nodes.length) % (peers.length + nodes.length) := by
        rw [Nat.sub_sub, ← Nat.mod_eq_sub_mod hge]
      have hf : (idx - peers.length - nodes.length) / (peers.length + nodes.length) < n := by
        omega
      obtain ⟨t, ht, hloop⟩ := ih (idx - peers.length - nodes.length) ((sidx + 1) % 2 ^ 32)
        (Nat.mod_lt _ (Nat.two_pow_pos 32)) hf
      refine ⟨t, ?_, ?_⟩
      · rw [hmod]
        exact ht
      · rw [hloop, hdiv, Nat.mod_add_mod]
        congr 3
        omega

/-! ## The timer callback `pingCycle` -/

/-- C1: with at most one confirmed supernode, a non-empty registry, no candidate and both
`peers` and `nodes` empty, `pingCycle` never returns: for every budget of loop iterations the
call is still running inside its `for (;;)` loop (after the one query was created). -/
theorem pingCycle_empty_pools_never_returns (X : Ext) (snp : SupernodeHunter_pvt)
    (hconf : snp.snodes.length ≤ 1) (hreg : snp.snodeAddrs ≠ [])
    (hcand : snp.snodeCandidates = []) (hpeers : snp.peers = []) (hnodes : snp.nodes = [])
    (fuel : Nat) : pingCycle X fuel snp = Outcome.running := by
  have h0 : ¬ snp.snodes.length > 1 := Nat.not_lt.mpr hconf
  have h1 : ¬ snp.snodeAddrs.length = 0 := fun h => hreg (List.length_eq_zero.mp h)
  have h2 : ¬ snp.snodeCandidates.length ≠ 0 := by
    rw [hcand]
    exact fun h => h rfl
  rw [pingCycle, if_neg h0, dif_neg h1]
  simp only [dif_neg h2]
  rw [hpeers, hnodes, pingCycle_loop_empty]

/-- C1, at a constructed engine with no peer and one authorized supernode, for a budget of
a million loop iterations. -/
theorem pingCycle_empty_pools_never_returns_witness :
    pingCycle (Sample.ext []) 1000000
        (SupernodeHunter_addSnode (Sample.ext [])
          (SupernodeHunter_new (Sample.ext []) [] Sample.me) Sample.snodeA).2
      = Outcome.running :=
  pingCycle_empty_pools_never_returns (Sample.ext []) _ (by decide) (by decide) (by decide)
    (by decide) (by decide) 1000000

/-- C6: with at most one confirmed supernode, a non-empty registry and a non-empty candidate
pool, `pingCycle` returns for every budget, creates exactly one query, a `gr` addressed to
the candidate at the last index with `src` the own key stringified (the string that the
constructor stored in `selfKeyStr`), `tar` that candidate's key stringified and `isGetRoute`
set, and leaves the whole state, cursors and pools, as it was. -/
theorem pingCycle_getRoute_priority (X : Ext) (fuel : Nat) (snp : SupernodeHunter_pvt)
    (hconf : snp.snodes.length ≤ 1) (hreg : snp.snodeAddrs ≠ [])
    (hcand : snp.snodeCandidates ≠ [])
    (hself : snp.selfKeyStr = X.Key_stringify snp.myAddress.key) :
    ∃ p : MsgCore_Promise, pingCycle X fuel snp = Outcome.returned (snp, [p]) ∧
      snp.snodeCandidates[snp.snodeCandidates.length - 1]? = some p.target ∧
      Dict_getStringC p.msg "q" = some (cstr "gr") ∧
      Dict_getStringC p.msg "src" = some (X.Key_stringify snp.myAddress.key) ∧
      Dict_getStringC p.msg "tar" = some (X.Key_stringify p.target.key) ∧
      p.userData.isGetRoute = true ∧ p.userData.searchTar = none := by
  have h0 : ¬ snp.snodes.length > 1 := Nat.not_lt.mpr hconf
  have h1 : ¬ snp.snodeAddrs.length = 0 := fun h => hreg (List.length_eq_zero.mp h)
  have h2 : snp.snodeCandidates.length ≠ 0 := fun h => hcand (List.length_eq_zero.mp h)
  rw [pingCycle, if_neg h0, dif_neg h1]
  simp only [dif_pos h2]
  refine ⟨_, rfl, ?_, rfl, ?_, rfl, rfl, rfl⟩
  · have hlt : snp.snodeCandidates.length - 1 < snp.snodeCandidates.length := by omega
    rw [List.getElem?_eq_getElem hlt]
    rfl
  · rw [hself]
    rfl

/-- C7: with more than one confirmed supernode `pingCycle` returns for every budget, creates
no query and leaves the whole state as it was, whatever the registry and the pools hold. -/
theorem pingCycle_steady_state (X : Ext) (fuel : Nat) (snp : SupernodeHunter_pvt)
    (hconf : snp.snodes.length > 1) :
    pingCycle X fuel snp = Outcome.returned (snp, []) := by
  rw [pingCycle, if_pos hconf]

/-- C8: with an empty registry `pingCycle` returns for every budget, creates no query and
leaves the whole state as it was, whatever the pools hold; the index into the registry,
taken modulo its length, is never computed. -/
theorem pingCycle_empty_registry (X : Ext) (fuel : Nat) (snp : SupernodeHunter_pvt)
    (hreg : snp.snodeAddrs = []) :
    pingCycle X fuel snp = Outcome.returned (snp, []) := by
  have h1 : snp.snodeAddrs.length = 0 := by rw [hreg]; rfl
  rw [pingCycle, dif_pos h1]
  exact ite_self _

/-! ## The registry of authorized supernodes -/

/-- The comparison of socket addresses is zero exactly for equal ones. -/
theorem Sockaddr_compare_eq_zero (a b : Sockaddr) : Sockaddr_compare a b = 0 ↔ a = b := by
  unfold Sockaddr_compare
  by_cases h : a = b
  · simp [h]
  · simp [h]

/-- The search of `snodeIndexOf` yields -1 exactly when no stored entry equals the address. -/
theorem snodeIndexOf_from_eq_neg_one (udpAddr : Sockaddr) (l : List Sockaddr) (i : Nat) :
    snodeIndexOf_from udpAddr l i = -1 ↔ udpAddr ∉ l := by
  induction l generalizing i with
  | nil => simp [snodeIndexOf_from]
  | cons sa rest ih =>
    unfold snodeIndexOf_from
    by_cases h : Sockaddr_compare sa udpAddr = 0
    · have hsa : sa = udpAddr := (Sockaddr_compare_eq_zero sa udpAddr).mp h
      rw [if_pos h]
      constructor
      · intro hi
        omega
      · intro hn
        exact absurd (hsa ▸ List.mem_cons_self sa rest) hn
    · have hsa : ¬ sa = udpAddr := fun e => h ((Sockaddr_compare_eq_zero sa udpAddr).mpr e)
      rw [if_neg h, ih (i + 1)]
      constructor
      · intro hn hm
        rcases List.mem_cons.mp hm with e | e
        · exact hsa e.symm
        · exact hn e
      · intro hn hm
        exact hn (List.mem_cons_of_mem sa hm)

/-- After `SupernodeHunter_addSnode` with an address of the accepted family the address is
stored, whether the call added it or found it. -/
theorem addSnode_mem (X : Ext) (snp : SupernodeHunter_pvt) (A : Sockaddr)
    (hfam : Sockaddr_getFamily A = X.Sockaddr_AF_INET6) :
    A ∈ (SupernodeHunter_addSnode X snp A).2.snodeAddrs := by
  unfold SupernodeHunter_addSnode
  rw [if_neg (not_not.mpr hfam)]
  by_cases h : snodeIndexOf snp A ≠ -1
  · rw [if_pos h]
    by_contra hn
    exact h ((snodeIndexOf_from_eq_neg_one A snp.snodeAddrs 0).mpr hn)
  · rw [if_neg h]
    exact List.mem_append_right _ (List.mem_singleton_self _)

/-- C9: for every state and every address `A` of the accepted family, a second
`SupernodeHunter_addSnode` of `A` right after a first one returns
`SupernodeHunter_addSnode_EXISTS` and leaves the state, the registry with it, exactly as the
first call left it. -/
theorem addSnode_twice_exists (X : Ext) (snp : SupernodeHunter_pvt) (A : Sockaddr)
    (hfam : Sockaddr_getFamily A = X.Sockaddr_AF_INET6) :
    SupernodeHunter_addSnode X (SupernodeHunter_addSnode X snp A).2 A
      = (X.SupernodeHunter_addSnode_EXISTS, (SupernodeHunter_addSnode X snp A).2) := by
  have hmem := addSnode_mem X snp A hfam
  have hidx : snodeIndexOf (SupernodeHunter_addSnode X snp A).2 A ≠ -1 := fun h =>
    (snodeIndexOf_from_eq_neg_one A _ 0).mp h hmem
  generalize (SupernodeHunter_addSnode X snp A).2 = snp1 at hidx
  unfold SupernodeHunter_addSnode
  rw [if_neg (not_not.mpr hfam), if_pos hidx]

/-- C10: for every state and every address whose family is not the accepted one,
`SupernodeHunter_addSnode` returns `SupernodeHunter_addSnode_INVALID_FAMILY` and leaves the
state unchanged, whether or not an equal entry is stored. -/
theorem addSnode_invalid_family (X : Ext) (snp : SupernodeHunter_pvt) (A : Sockaddr)
    (hfam : Sockaddr_getFamily A ≠ X.Sockaddr_AF_INET6) :
    SupernodeHunter_addSnode X snp A = (X.SupernodeHunter_addSnode_INVALID_FAMILY, snp) := by
  unfold SupernodeHunter_addSnode
  rw [if_pos hfam]

/-! ## The reply callback `onReply` -/

/-- The loop over the parsed node list changes `nodes` and `snodeCandidates` only. -/
theorem onReply_results_frame (q : Query) (results : List Address)
    (snp snp1 : SupernodeHunter_pvt) (h : onReply_results q snp results = some snp1) :
    snp1.snodes = snp.snodes ∧ snp1.snodeAddrs = snp.snodeAddrs ∧ snp1.peers = snp.peers ∧
    snp1.nodeListIndex = snp.nodeListIndex ∧ snp1.snodeAddrIdx = snp.snodeAddrIdx ∧
    snp1.myAddress = snp.myAddress ∧ snp1.selfKeyStr = snp.selfKeyStr := by
  induction results generalizing snp with
  | nil =>
    rw [onReply_results] at h
    cases h
    exact ⟨rfl, rfl, rfl, rfl, rfl, rfl, rfl⟩
  | cons elem rest ih =>
    rw [onReply_results] at h
    dsimp only at h
    split at h
    · split at h
      · exact ih _ h
      · have h2 := ih _ h
        exact h2
    · split at h
      · cases h
      · split at h
        · have h2 := ih _ h
          exact h2
        · exact ih _ h

/-- The loop over the parsed node list keeps `nodes` within `SupernodeHunter_pvt_nodes_MAX`. -/
theorem onReply_results_nodes_le (q : Query) (results : List Address)
    (snp snp1 : SupernodeHunter_pvt) (h : onReply_results q snp results = some snp1)
    (hb : snp.nodes.length ≤ SupernodeHunter_pvt_nodes_MAX) :
    snp1.nodes.length ≤ SupernodeHunter_pvt_nodes_MAX := by
  induction results generalizing snp with
  | nil =>
    rw [onReply_results] at h
    cases h
    exact hb
  | cons elem rest ih =>
    rw [onReply_results] at h
    dsimp only at h
    split at h
    · split at h
      · exact ih _ h hb
      · refine ih _ h ?_
        show (AddrSet_add _ elem).length ≤ SupernodeHunter_pvt_nodes_MAX
        unfold AddrSet_add AddrSet_flush
        rw [List.length_append]
        split
        · exact Nat.le_of_ble_eq_true rfl
        · show _ + 1 ≤ SupernodeHunter_pvt_nodes_MAX
          omega
    · split at h
      · cases h
      · split at h
        · exact ih _ h hb
        · exact ih _ h hb

/-- The part of `onReply` from the node-list decoder on keeps `nodes` within
`SupernodeHunter_pvt_nodes_MAX` and leaves own address and own key string alone. -/
theorem onReply_parse_inv (X : Ext) (snp snp1 : SupernodeHunter_pvt) (msg : Dict)
    (src : Address) (q : Query) (h : onReply_parse X snp msg src q = some snp1)
    (hb : snp.nodes.length ≤ SupernodeHunter_pvt_nodes_MAX) :
    snp1.nodes.length ≤ SupernodeHunter_pvt_nodes_MAX ∧
      snp1.myAddress = snp.myAddress ∧ snp1.selfKeyStr = snp.selfKeyStr := by
  unfold onReply_parse at h
  split at h
  · cases h
    exact ⟨hb, rfl, rfl⟩
  · have hf := onReply_results_frame q _ snp snp1 h
    exact ⟨onReply_results_nodes_le q _ snp snp1 h hb, hf.2.2.2.2.2.1, hf.2.2.2.2.2.2⟩

/-- A returning `onReply` keeps `nodes` within `SupernodeHunter_pvt_nodes_MAX` and leaves own
address and own key string alone. -/
theorem onReply_inv (X : Ext) (snp snp1 : SupernodeHunter_pvt) (msg : Dict)
    (src : Option Address) (prom : MsgCore_Promise)
    (h : onReply X snp msg src prom = some snp1)
    (hb : snp.nodes.length ≤ SupernodeHunter_pvt_nodes_MAX) :
    snp1.nodes.length ≤ SupernodeHunter_pvt_nodes_MAX ∧
      snp1.myAddress = snp.myAddress ∧ snp1.selfKeyStr = snp.selfKeyStr := by
  unfold onReply at h
  dsimp only at h
  split at h
  · cases h
    exact ⟨hb, rfl, rfl⟩
  · split at h
    · split at h
      · cases h
        exact ⟨hb, rfl, rfl⟩
      · split at h
        · cases h
          exact ⟨hb, rfl, rfl⟩
        · split at h
          · cases h
            exact ⟨hb, rfl, rfl⟩
          · split at h
            · have h2 := onReply_parse_inv X _ snp1 msg _ _ h hb
              exact h2
            · have h2 := onReply_parse_inv X _ snp1 msg _ _ h hb
              exact h2
    · exact onReply_parse_inv X snp snp1 msg _ _ h hb

/-- A returning `pingCycle` creates at most one query and changes nothing but the two
cursors. -/
theorem pingCycle_frame (X : Ext) (fuel : Nat) (snp snp1 : SupernodeHunter_pvt)
    (qs : List MsgCore_Promise) (h : pingCycle X fuel snp = Outcome.returned (snp1, qs)) :
    qs.length ≤ 1 ∧ snp1.snodes = snp.snodes ∧ snp1.snodeAddrs = snp.snodeAddrs ∧
      snp1.peers = snp.peers ∧ snp1.nodes = snp.nodes ∧
      snp1.snodeCandidates = snp.snodeCandidates ∧ snp1.myAddress = snp.myAddress ∧
      snp1.selfKeyStr = snp.selfKeyStr := by
  unfold pingCycle at h
  split at h
  · cases h
    exact ⟨Nat.zero_le _, rfl, rfl, rfl, rfl, rfl, rfl, rfl⟩
  · split at h
    · cases h
      exact ⟨Nat.zero_le _, rfl, rfl, rfl, rfl, rfl, rfl, rfl⟩
    · dsimp only at h
      split at h
      · cases h
        exact ⟨Nat.le_refl _, rfl, rfl, rfl, rfl, rfl, rfl, rfl⟩
      · split at h
        · cases h
        · split at h
          · cases h
            exact ⟨Nat.le_refl _, rfl, rfl, rfl, rfl, rfl, rfl, rfl⟩
          · split at h
            · cases h
            · cases h
              exact ⟨Nat.le_refl _, rfl, rfl, rfl, rfl, rfl, rfl, rfl⟩

/-- The registry functions change the registry only. -/
theorem addSnode_frame (X : Ext) (snp : SupernodeHunter_pvt) (udpAddr : Sockaddr) :
    (SupernodeHunter_addSnode X snp udpAddr).2.nodes = snp.nodes ∧
      (SupernodeHunter_addSnode X snp udpAddr).2.myAddress = snp.myAddress ∧
      (SupernodeHunter_addSnode X snp udpAddr).2.selfKeyStr = snp.selfKeyStr := by
  unfold SupernodeHunter_addSnode
  split
  · exact ⟨rfl, rfl, rfl⟩
  · split
    · exact ⟨rfl, rfl, rfl⟩
    · exact ⟨rfl, rfl, rfl⟩

/-- The registry functions change the registry only. -/
theorem removeSnode_frame (X : Ext) (snp : SupernodeHunter_pvt) (toRemove : Sockaddr) :
    (SupernodeHunter_removeSnode X snp toRemove).2.nodes = snp.nodes ∧
      (SupernodeHunter_removeSnode X snp toRemove).2.myAddress = snp.myAddress ∧
      (SupernodeHunter_removeSnode X snp toRemove).2.selfKeyStr = snp.selfKeyStr := by
  unfold SupernodeHunter_removeSnode
  dsimp only
  split
  · exact ⟨rfl, rfl, rfl⟩
  · exact ⟨rfl, rfl, rfl⟩

/-- In every reachable state `nodes` is within `SupernodeHunter_pvt_nodes_MAX` and the own
key string is the stringified own key. -/
theorem Reachable_inv (X : Ext) (snp : SupernodeHunter_pvt) (h : Reachable X snp) :
    snp.nodes.length ≤ SupernodeHunter_pvt_nodes_MAX ∧
      snp.selfKeyStr = X.Key_stringify snp.myAddress.key := by
  induction h with
  | constructed peers myAddress => exact ⟨Nat.zero_le _, rfl⟩
  | onCycle fuel qs _ hstep ih =>
    have hf := pingCycle_frame X fuel _ _ qs hstep
    rw [hf.2.2.2.2.1, hf.2.2.2.2.2.2.1, hf.2.2.2.2.2.2.2]
    exact ih
  | onReply msg src prom _ hstep ih =>
    have hf := onReply_inv X _ _ msg src prom hstep ih.1
    rw [hf.2.1, hf.2.2]
    exact ⟨hf.1, ih.2⟩
  | @addSnode s udpAddr _ ih =>
    have hf := addSnode_frame X s udpAddr
    rw [hf.1, hf.2.1, hf.2.2]
    exact ih
  | @removeSnode s toRemove _ ih =>
    have hf := removeSnode_frame X s toRemove
    rw [hf.1, hf.2.1, hf.2.2]
    exact ih
  | peersChanged peers _ ih => exact ih

/-- C3: in every state reachable from the constructed one by timer callbacks, reply
callbacks (any payload, responder and pending query), registry calls and changes of the peer
set, `nodes` holds at most 64 addresses; and the add of a getPeers result to a pool that
holds 64 or more is preceded by the flush, so that the pool then holds that result alone. -/
theorem nodes_capacity_invariant (X : Ext) (snp : SupernodeHunter_pvt)
    (h : Reachable X snp) :
    snp.nodes.length ≤ 64 ∧
      ∀ (q : Query) (elem : Address), q.searchTar = none →
        Address_isSameIp elem snp.myAddress = false → 64 ≤ snp.nodes.length →
        onReply_results q snp [elem] = some { snp with nodes := [elem] } := by
  refine ⟨(Reachable_inv X snp h).1, ?_⟩
  intro q elem hq hip hfull
  have hfull1 : snp.nodes.length ≥ SupernodeHunter_pvt_nodes_MAX := hfull
  rw [onReply_results, hq]
  dsimp only
  rw [hip, if_pos hfull1]
  rfl


/-! ## Discovery cycles -/

/-- A discovery cycle: with at most one confirmed supernode, a registry of 16-byte addresses
that is not empty, no candidate, `L > 0` addresses in `peers` and `nodes` together and a
budget above `(c >> 1) / L`, `pingCycle` returns, having advanced both cursors, with one query
to element `(c >> 1) % L` of `peers ++ nodes`: a `gp` for odd `c`, an `fn` for the registry
entry under the advanced supernode cursor for even `c`. -/
theorem pingCycle_discovery (X : Ext) (fuel : Nat) (snp : SupernodeHunter_pvt)
    (hconf : snp.snodes.length ≤ 1) (hreg : snp.snodeAddrs ≠ [])
    (h16 : ∀ sa ∈ snp.snodeAddrs, sa.address.length = 16)
    (hcand : snp.snodeCandidates = [])
    (hL : 0 < snp.peers.length + snp.nodes.length) (hs : snp.snodeAddrIdx < 2 ^ 32)
    (hfuel : (snp.nodeListIndex >>> 1) / (snp.peers.length + snp.nodes.length) < fuel) :
    ∃ (t : Address) (d : Sockaddr),
      (snp.peers ++ snp.nodes)[(snp.nodeListIndex >>> 1)
          % (snp.peers.length + snp.nodes.length)]? = some t ∧
      snp.snodeAddrs[((snp.snodeAddrIdx + (snp.nodeListIndex >>> 1)
          / (snp.peers.length + snp.nodes.length)) % 2 ^ 32) % snp.snodeAddrs.length]?
        = some d ∧
      pingCycle X fuel snp = Outcome.returned
        ({ snp with
            nodeListIndex := (snp.nodeListIndex + 1) % 2 ^ 32
            snodeAddrIdx := (snp.snodeAddrIdx + (snp.nodeListIndex >>> 1)
              / (snp.peers.length + snp.nodes.length)) % 2 ^ 32 },
         [if snp.nodeListIndex &&& 1 != 0 then
            { target := t
              msg := Dict_putStringC (Dict_putStringCC Dict_new "q" "gp") "tar"
                [0, 0, 0, 0, 0, 0, 0, 1]
              userData := { searchTar := none, isGetRoute := false } }
          else
            { target := t
              msg := Dict_putStringC (Dict_putStringCC Dict_new "q" "fn") "tar"
                (d.address.take 16)
              userData := { searchTar := some d, isGetRoute := false } }]) := by
  have h0 : ¬ snp.snodes.length > 1 := Nat.not_lt.mpr hconf
  have h1 : ¬ snp.snodeAddrs.length = 0 := fun h => hreg (List.length_eq_zero.mp h)
  have h2 : ¬ snp.snodeCandidates.length ≠ 0 := by
    rw [hcand]
    exact fun h => h rfl
  obtain ⟨t, ht, hloop⟩ := pingCycle_loop_spec snp.peers snp.nodes hL fuel
    (snp.nodeListIndex >>> 1) snp.snodeAddrIdx hs hfuel
  have hlt : ((snp.snodeAddrIdx + (snp.nodeListIndex >>> 1)
      / (snp.peers.length + snp.nodes.length)) % 2 ^ 32) % snp.snodeAddrs.length
      < snp.snodeAddrs.length := Nat.mod_lt _ (Nat.pos_of_ne_zero h1)
  refine ⟨t, snp.snodeAddrs.get ⟨_, hlt⟩, ht, ?_, ?_⟩
  · rw [List.getElem?_eq_getElem hlt]
    rfl
  · have hd : (snp.snodeAddrs.get ⟨_, hlt⟩).address.length = 16 :=
      h16 _ (List.get_mem _ _ _)
    have hassert : ¬ (Sockaddr_getAddress (snp.snodeAddrs.get ⟨_, hlt⟩)).1 ≠ 16 := by
      unfold Sockaddr_getAddress
      rw [hd]
      exact fun h => h rfl
    rw [pingCycle, if_neg h0, dif_neg h1]
    simp only [dif_neg h2]
    rw [hloop]
    dsimp only
    by_cases hgp : (snp.nodeListIndex &&& 1 != 0) = true
    · rw [if_pos hgp, if_pos hgp]
    · rw [if_neg hgp, if_neg hgp, if_neg hassert]
      rfl

/-- During the first pass over `peers ++ nodes` the supernode cursor does not advance. -/
theorem cursorAdvance_first_pass (L n : Nat) (h : n ≤ 2 * L) : cursorAdvance L n = 0 := by
  induction n with
  | zero => rfl
  | succ k ih =>
    have hk : k % 2 ^ 32 ≤ k := Nat.mod_le _ _
    have hlt : (k % 2 ^ 32) >>> 1 < L := by
      rw [Nat.shiftRight_eq_div_pow]
      omega
    rw [cursorAdvance, ih (by omega), Nat.div_eq_of_lt hlt]

/-- A run of `n` discovery cycles that starts after `m` earlier ones: every cycle returns
and the cursors count on. -/
theorem pingCycles_from (X : Ext) (fuel L : Nat) (n : Nat) (snp : SupernodeHunter_pvt)
    (m : Nat) (hconf : snp.snodes.length ≤ 1) (hreg : snp.snodeAddrs ≠ [])
    (h16 : ∀ sa ∈ snp.snodeAddrs, sa.address.length = 16)
    (hcand : snp.snodeCandidates = [])
    (hLdef : snp.peers.length + snp.nodes.length = L) (hL : 0 < L)
    (hc : snp.nodeListIndex = m % 2 ^ 32)
    (hsi : snp.snodeAddrIdx = cursorAdvance L m % 2 ^ 32)
    (hfuel : ∀ j, m ≤ j → j < m + n → ((j % 2 ^ 32) >>> 1) / L < fuel) :
    ∃ qs : List MsgCore_Promise,
      pingCycles X fuel n snp = Outcome.returned
        ({ snp with nodeListIndex := (m + n) % 2 ^ 32
                    snodeAddrIdx := cursorAdvance L (m + n) % 2 ^ 32 }, qs) ∧
      qs.length = n := by
  induction n generalizing snp m with
  | zero =>
    refine ⟨[], ?_, rfl⟩
    rw [pingCycles, Nat.add_zero, ← hc, ← hsi]
  | succ k ih =>
    have hs : snp.snodeAddrIdx < 2 ^ 32 := by
      rw [hsi]
      exact Nat.mod_lt _ (Nat.two_pow_pos 32)
    have hf0 : (snp.nodeListIndex >>> 1) / (snp.peers.length + snp.nodes.length) < fuel := by
      rw [hLdef, hc]
      exact hfuel m (Nat.le_refl _) (by omega)
    obtain ⟨t, d, -, -, hstep⟩ := pingCycle_discovery X fuel snp hconf hreg h16 hcand
      (hLdef ▸ hL) hs hf0
    have hc1 : (snp.nodeListIndex + 1) % 2 ^ 32 = (m + 1) % 2 ^ 32 := by
      rw [hc, Nat.mod_add_mod]
    have hsi1 : (snp.snodeAddrIdx + (snp.nodeListIndex >>> 1)
        / (snp.peers.length + snp.nodes.length)) % 2 ^ 32
        = cursorAdvance L (m + 1) % 2 ^ 32 := by
      rw [hLdef, hc, hsi, Nat.mod_add_mod]
      rfl
    rw [hc1, hsi1] at hstep
    generalize (if (snp.nodeListIndex &&& 1 != 0) = true then
        ({ target := t
           msg := Dict_putStringC (Dict_putStringCC Dict_new "q" "gp") "tar"
             [0, 0, 0, 0, 0, 0, 0, 1]
           userData := { searchTar := none, isGetRoute := false } } : MsgCore_Promise)
      else
        { target := t
          msg := Dict_putStringC (Dict_putStringCC Dict_new "q" "fn") "tar"
            (d.address.take 16)
          userData := { searchTar := some d, isGetRoute := false } }) = q0 at hstep
    obtain ⟨qs, hrun, hlen⟩ := ih
      { snp with nodeListIndex := (m + 1) % 2 ^ 32
                 snodeAddrIdx := cursorAdvance L (m + 1) % 2 ^ 32 }
      (m + 1) hconf hreg h16 hcand hLdef rfl rfl
      (fun j h1 h2 => hfuel j (by omega) (by omega))
    dsimp only at hrun
    refine ⟨q0 :: qs, ?_, ?_⟩
    · rw [pingCycles, hstep]
      dsimp only
      rw [hrun]
      dsimp only
      rw [Nat.add_assoc, Nat.add_comm 1 k]
      rfl
    · rw [List.length_cons, hlen]

/-- The supernode cursor over a run of discovery cycles, as the code computes it: from the
constructed cursors (both zero, no candidate, at most one confirmed supernode), with `peers`
and `nodes` fixed at `L > 0` addresses together and a fixed non-empty registry of 16-byte
addresses, every cycle returns; the cycle numbered `n` (from 0) advances the supernode
cursor by `((n mod 2^32) >> 1) / L` on top of all earlier advances, since the traversal
cursor is never reduced, so that it leaves the cursor at `cursorAdvance L (n + 1) mod 2^32`
and takes the registry entry at that value modulo the registry length as `desiredSnode`;
only throughout the first pass (`n < 2 * L`) is the advance zero. -/
theorem discovery_run_supernode_cursor (X : Ext) (fuel n : Nat) (snp : SupernodeHunter_pvt)
    (hconf : snp.snodes.length ≤ 1) (hreg : snp.snodeAddrs ≠ [])
    (h16 : ∀ sa ∈ snp.snodeAddrs, sa.address.length = 16)
    (hcand : snp.snodeCandidates = [])
    (hL : 0 < snp.peers.length + snp.nodes.length)
    (hc : snp.nodeListIndex = 0) (hsi : snp.snodeAddrIdx = 0)
    (hfuel : ∀ j, j ≤ n →
      ((j % 2 ^ 32) >>> 1) / (snp.peers.length + snp.nodes.length) < fuel) :
    ∃ (qs : List MsgCore_Promise) (t : Address) (d : Sockaddr),
      pingCycles X fuel n snp = Outcome.returned
        ({ snp with
            nodeListIndex := n % 2 ^ 32
            snodeAddrIdx := cursorAdvance (snp.peers.length + snp.nodes.length) n % 2 ^ 32 },
         qs) ∧
      qs.length = n ∧
      (snp.peers ++ snp.nodes)[((n % 2 ^ 32) >>> 1)
          % (snp.peers.length + snp.nodes.length)]? = some t ∧
      cursorAdvance (snp.peers.length + snp.nodes.length) (n + 1)
        = cursorAdvance (snp.peers.length + snp.nodes.length) n
          + ((n % 2 ^ 32) >>> 1) / (snp.peers.length + snp.nodes.length) ∧
      snp.snodeAddrs[(cursorAdvance (snp.peers.length + snp.nodes.length) (n + 1) % 2 ^ 32)
          % snp.snodeAddrs.length]? = some d ∧
      pingCycle X fuel
          { snp with
            nodeListIndex := n % 2 ^ 32
            snodeAddrIdx := cursorAdvance (snp.peers.length + snp.nodes.length) n % 2 ^ 32 }
        = Outcome.returned
        ({ snp with
            nodeListIndex := (n + 1) % 2 ^ 32
            snodeAddrIdx :=
              cursorAdvance (snp.peers.length + snp.nodes.length) (n + 1) % 2 ^ 32 },
         [if (n % 2 ^ 32) &&& 1 != 0 then
            { target := t
              msg := Dict_putStringC (Dict_putStringCC Dict_new "q" "gp") "tar"
                [0, 0, 0, 0, 0, 0, 0, 1]
              userData := { searchTar := none, isGetRoute := false } }
          else
            { target := t
              msg := Dict_putStringC (Dict_putStringCC Dict_new "q" "fn") "tar"
                (d.address.take 16)
              userData := { searchTar := some d, isGetRoute := false } }]) ∧
      (n < 2 * (snp.peers.length + snp.nodes.length) →
        cursorAdvance (snp.peers.length + snp.nodes.length) (n + 1) = 0) := by
  obtain ⟨qs, hrun, hlen⟩ := pingCycles_from X fuel (snp.peers.length + snp.nodes.length) n
    snp 0 hconf hreg h16 hcand rfl hL hc hsi
    (fun j _ h2 => hfuel j (by omega))
  rw [Nat.zero_add] at hrun
  obtain ⟨t, d, ht, hd, hstep⟩ := pingCycle_discovery X fuel
    { snp with
      nodeListIndex := n % 2 ^ 32
      snodeAddrIdx := cursorAdvance (snp.peers.length + snp.nodes.length) n % 2 ^ 32 }
    hconf hreg h16 hcand hL (Nat.mod_lt _ (Nat.two_pow_pos 32)) (hfuel n (Nat.le_refl _))
  dsimp only at ht hd hstep
  have hsi1 : (cursorAdvance (snp.peers.length + snp.nodes.length) n % 2 ^ 32
        + ((n % 2 ^ 32) >>> 1) / (snp.peers.length + snp.nodes.length)) % 2 ^ 32
      = cursorAdvance (snp.peers.length + snp.nodes.length) (n + 1) % 2 ^ 32 := by
    rw [Nat.mod_add_mod]
    rfl
  rw [hsi1] at hd hstep
  rw [Nat.mod_add_mod] at hstep
  exact ⟨qs, t, d, hrun, hlen, ht, rfl, hd, hstep,
    fun h => cursorAdvance_first_pass _ _ (by omega)⟩

/-! ## The claims evaluated on the sample engine -/

/-- C5: the run of discovery cycles does not give each pass over `peers ++ nodes` its own
authorized supernode.  With one peer, no node (`L = 1`) and the registry
`[snodeA, snodeB, snodeC]`, the cycle with traversal cursor 4 has offset 2 and so belongs to
pass 2, for which the claim names registry entry `2 mod 3`, `snodeC`; the code has by then
advanced the supernode cursor to 4 (it stood at 2 after the two cycles of pass 1, one advance
per cycle and not one per pass) and searches for entry `4 mod 3`, `snodeB`; over the first
twelve cycles, passes 0 to 5, the `fn` queries search for `snodeA` and `snodeB` only and
never for `snodeC`. -/
theorem discovery_run_skips_supernode :
    Sample.hunterABC.peers.length + Sample.hunterABC.nodes.length = 1 ∧
    Sample.hunterABC.snodeAddrs = [Sample.snodeA, Sample.snodeB, Sample.snodeC] ∧
    (4 >>> 1) / 1 = 2 ∧
    Sample.hunterABC.snodeAddrs[2 % 3]? = some Sample.snodeC ∧
    (pingCycles Sample.ext1 3 4 Sample.hunterABC).toOption.map
        (fun r => (r.1.nodeListIndex, r.1.snodeAddrIdx)) = some (4, 2) ∧
    (pingCycles Sample.ext1 3 5 Sample.hunterABC).toOption.map
        (fun r => (r.1.snodeAddrIdx, r.2.map (fun p => p.userData.searchTar)))
      = some (4, [some Sample.snodeA, none, some Sample.snodeB, none, some Sample.snodeB]) ∧
    (pingCycles Sample.ext1 6 12 Sample.hunterABC).toOption.map
        (fun r => r.2.map (fun p => p.userData.searchTar))
      = some [some Sample.snodeA, none, some Sample.snodeB, none, some Sample.snodeB, none,
          some Sample.snodeA, none, some Sample.snodeB, none, some Sample.snodeB, none] ∧
    Sample.snodeB ≠ Sample.snodeC ∧ Sample.snodeA ≠ Sample.snodeC := by
  decide

/-- The run of discovery cycles on the sample engine with three authorized supernodes, up to
cycle 4. -/
theorem discovery_run_supernode_cursor_witness :
    ∃ (qs : List MsgCore_Promise) (t : Address) (d : Sockaddr),
      pingCycles Sample.ext1 3 4 Sample.hunterABC = Outcome.returned
        ({ Sample.hunterABC with
            nodeListIndex := 4 % 2 ^ 32
            snodeAddrIdx := cursorAdvance
              (Sample.hunterABC.peers.length + Sample.hunterABC.nodes.length) 4 % 2 ^ 32 },
         qs) ∧
      qs.length = 4 ∧
      (Sample.hunterABC.peers ++ Sample.hunterABC.nodes)[((4 % 2 ^ 32) >>> 1)
          % (Sample.hunterABC.peers.length + Sample.hunterABC.nodes.length)]? = some t ∧
      cursorAdvance (Sample.hunterABC.peers.length + Sample.hunterABC.nodes.length) (4 + 1)
        = cursorAdvance (Sample.hunterABC.peers.length + Sample.hunterABC.nodes.length) 4
          + ((4 % 2 ^ 32) >>> 1)
            / (Sample.hunterABC.peers.length + Sample.hunterABC.nodes.length) ∧
      Sample.hunterABC.snodeAddrs[(cursorAdvance
          (Sample.hunterABC.peers.length + Sample.hunterABC.nodes.length) (4 + 1) % 2 ^ 32)
          % Sample.hunterABC.snodeAddrs.length]? = some d ∧
      pingCycle Sample.ext1 3
          { Sample.hunterABC with
            nodeListIndex := 4 % 2 ^ 32
            snodeAddrIdx := cursorAdvance
              (Sample.hunterABC.peers.length + Sample.hunterABC.nodes.length) 4 % 2 ^ 32 }
        = Outcome.returned
        ({ Sample.hunterABC with
            nodeListIndex := (4 + 1) % 2 ^ 32
            snodeAddrIdx := cursorAdvance
              (Sample.hunterABC.peers.length + Sample.hunterABC.nodes.length) (4 + 1)
                % 2 ^ 32 },
         [if (4 % 2 ^ 32) &&& 1 != 0 then
            { target := t
              msg := Dict_putStringC (Dict_putStringCC Dict_new "q" "gp") "tar"
                [0, 0, 0, 0, 0, 0, 0, 1]
              userData := { searchTar := none, isGetRoute := false } }
          else
            { target := t
              msg := Dict_putStringC (Dict_putStringCC Dict_new "q" "fn") "tar"
                (d.address.take 16)
              userData := { searchTar := some d, isGetRoute := false } }]) ∧
      (4 < 2 * (Sample.hunterABC.peers.length + Sample.hunterABC.nodes.length) →
        cursorAdvance (Sample.hunterABC.peers.length + Sample.hunterABC.nodes.length) (4 + 1)
          = 0) :=
  discovery_run_supernode_cursor Sample.ext1 3 4 Sample.hunterABC (by decide) (by decide)
    (by decide) (by decide) (by decide) (by decide) (by decide) (by decide)

/-- C2: the candidate pool outgrows `SupernodeHunter_pvt_snodeCandidates_MAX`.  On the sample
engine the first timer callback creates a findNode query; its reply lists the sought
supernode over eight paths and fills the candidate pool to 8; the next timer callback
creates a getRoute query to the last candidate; the reply to that one carries another label
than the responder's path, and `onReply` adds the responder under the new path with no flush
before it: the reachable state `hunter9` holds 9 candidates, no two of them the same
address. -/
theorem candidates_exceed_capacity :
    pingCycle Sample.ext8 1 Sample.hunter1
      = Outcome.returned (Sample.hunter2, [Sample.fnQuery]) ∧
    onReply Sample.ext8 Sample.hunter2 Sample.fnReply (some Sample.peer) Sample.fnQuery
      = some Sample.hunter8 ∧
    Sample.hunter8.snodeCandidates.length = SupernodeHunter_pvt_snodeCandidates_MAX ∧
    pingCycle Sample.ext8 1 Sample.hunter8
      = Outcome.returned (Sample.hunter8, [Sample.grQuery 28]) ∧
    onReply Sample.ext8 Sample.hunter8 Sample.grReply99 (some (Sample.found 28))
        (Sample.grQuery 28)
      = some Sample.hunter9 ∧
    Sample.hunter9.snodeCandidates = Sample.hunter8.snodeCandidates ++ [Sample.found 153] ∧
    Sample.hunter9.snodeCandidates.length = 9 ∧
    Sample.hunter9.snodeCandidates.Pairwise (fun a b => Address_isSame a b = false) ∧
    Reachable Sample.ext8 Sample.hunter9 := by
  have h1 : pingCycle Sample.ext8 1 Sample.hunter1
      = Outcome.returned (Sample.hunter2, [Sample.fnQuery]) := by decide
  have h2 : onReply Sample.ext8 Sample.hunter2 Sample.fnReply (some Sample.peer)
      Sample.fnQuery = some Sample.hunter8 := by decide
  have h3 : pingCycle Sample.ext8 1 Sample.hunter8
      = Outcome.returned (Sample.hunter8, [Sample.grQuery 28]) := by decide
  have h4 : onReply Sample.ext8 Sample.hunter8 Sample.grReply99 (some (Sample.found 28))
      (Sample.grQuery 28) = some Sample.hunter9 := by decide
  have h0 : (SupernodeHunter_addSnode Sample.ext8
      (SupernodeHunter_new Sample.ext8 [Sample.peer] Sample.me) Sample.snodeA).2
      = Sample.hunter1 := by decide
  have r1 : Reachable Sample.ext8 Sample.hunter1 :=
    h0 ▸ Reachable.addSnode Sample.snodeA (Reachable.constructed [Sample.peer] Sample.me)
  have r2 : Reachable Sample.ext8 Sample.hunter8 :=
    Reachable.onReply _ _ _ (Reachable.onCycle 1 _ r1 h1) h2
  exact ⟨h1, h2, by decide, h3, h4, by decide, by decide, by decide,
    Reachable.onReply _ _ _ (Reachable.onCycle 1 _ r2 h3) h4⟩

/-- C3, on the sample engine after a findNode reply. -/
theorem nodes_capacity_invariant_witness :
    Sample.hunter3.nodes.length ≤ 64 ∧
      ∀ (q : Query) (elem : Address), q.searchTar = none →
        Address_isSameIp elem Sample.hunter3.myAddress = false →
        64 ≤ Sample.hunter3.nodes.length →
        onReply_results q Sample.hunter3 [elem]
          = some { Sample.hunter3 with nodes := [elem] } :=
  nodes_capacity_invariant Sample.ext1 Sample.hunter3
    (@Reachable.onReply Sample.ext1 Sample.hunter2 Sample.hunter3 Sample.fnReply
      (some Sample.peer) Sample.fnQuery
      (@Reachable.onCycle Sample.ext1 Sample.hunter1 Sample.hunter2 1 [Sample.fnQuery]
        (Reachable.addSnode Sample.snodeA (Reachable.constructed [Sample.peer] Sample.me))
        (by decide))
      (by decide))

/-- C4, refuted as stated.  A findNode reply that carries an `error` entry next to its node
list changes the candidate pool, since `error` is looked at for getRoute replies only; and a
getRoute reply with a well-formed label whose node list does not parse changes the confirmed
pool, since the confirmation is recorded before the node list is parsed. -/
theorem onReply_problem_counterexample :
    pingCycle Sample.ext1 1 Sample.hunter1
      = Outcome.returned (Sample.hunter2, [Sample.fnQuery]) ∧
    Dict_getStringC Sample.fnReplyWithError "error" = some (cstr "none") ∧
    onReply Sample.ext1 Sample.hunter2 Sample.fnReplyWithError (some Sample.peer)
        Sample.fnQuery
      = some Sample.hunter3 ∧
    Sample.hunter3.snodeCandidates ≠ Sample.hunter2.snodeCandidates ∧
    pingCycle Sample.ext1 1 Sample.hunter3
      = Outcome.returned (Sample.hunter3, [Sample.grQuery 21]) ∧
    Sample.ext1.ReplySerializer_parse (Sample.found 21) Sample.grReply15 = none ∧
    onReply Sample.ext1 Sample.hunter3 Sample.grReply15 (some (Sample.found 21))
        (Sample.grQuery 21)
      = some Sample.hunter4 ∧
    Sample.hunter4.snodes ≠ Sample.hunter3.snodes := by
  decide

/-- C4, as amended: `onReply` returns with the state, and so the three pools, unchanged when
the responder is absent; when the pending query is a getRoute and the reply has an `error`
string, or no `label` string, or a label that is not 20 bytes long or does not parse; and
when the pending query is not a getRoute and the node list does not parse. -/
theorem onReply_problem_unchanged (X : Ext) (snp : SupernodeHunter_pvt) (msg : Dict)
    (src : Option Address) (prom : MsgCore_Promise)
    (h : src = none ∨
      (prom.userData.isGetRoute = true ∧
        ((∃ e, Dict_getStringC msg "error" = some e) ∨
          Dict_getStringC msg "label" = none ∨
          ∃ l, Dict_getStringC msg "label" = some l ∧
            (l.length ≠ 20 ∨ X.AddrTools_parsePath l = none))) ∨
      (prom.userData.isGetRoute = false ∧
        ∃ a, src = some a ∧ X.ReplySerializer_parse a msg = none)) :
    onReply X snp msg src prom = some snp := by
  cases src with
  | none => rfl
  | some a =>
    rcases h with h | ⟨hgr, h⟩ | ⟨hgr, b, hb, hparse⟩
    · cases h
    · unfold onReply
      dsimp only
      rw [if_pos hgr]
      rcases h with ⟨e, he⟩ | h | ⟨l, hl, h⟩
      · rw [he]
      · cases herr : Dict_getStringC msg "error" with
        | some e => rfl
        | none =>
          dsimp only
          rw [h]
      · cases herr : Dict_getStringC msg "error" with
        | some e => rfl
        | none =>
          dsimp only
          rw [hl]
          dsimp only
          rcases h with h | h
          · rw [if_pos h]
          · rw [h, ite_self]
    · cases hb
      unfold onReply
      dsimp only
      rw [hgr]
      simp only [Bool.false_eq_true, if_false]
      unfold onReply_parse
      rw [hparse]

/-- C4, as amended, on a getRoute reply of the sample engine that reports an error. -/
theorem onReply_problem_unchanged_witness :
    onReply Sample.ext1 Sample.hunter3 [("error", cstr "not_found")] (some (Sample.found 21))
        (Sample.grQuery 21)
      = some Sample.hunter3 :=
  onReply_problem_unchanged Sample.ext1 Sample.hunter3 [("error", cstr "not_found")]
    (some (Sample.found 21)) (Sample.grQuery 21)
    (Or.inr (Or.inl ⟨rfl, Or.inl ⟨cstr "not_found", rfl⟩⟩))

/-- C6, on the sample engine with the supernode found once. -/
theorem pingCycle_getRoute_priority_witness :
    ∃ p : MsgCore_Promise,
      pingCycle Sample.ext1 0 Sample.hunter3 = Outcome.returned (Sample.hunter3, [p]) ∧
      Sample.hunter3.snodeCandidates[Sample.hunter3.snodeCandidates.length - 1]?
        = some p.target ∧
      Dict_getStringC p.msg "q" = some (cstr "gr") ∧
      Dict_getStringC p.msg "src"
        = some (Sample.ext1.Key_stringify Sample.hunter3.myAddress.key) ∧
      Dict_getStringC p.msg "tar" = some (Sample.ext1.Key_stringify p.target.key) ∧
      p.userData.isGetRoute = true ∧ p.userData.searchTar = none :=
  pingCycle_getRoute_priority Sample.ext1 0 Sample.hunter3 (by decide) (by decide)
    (by decide) (by decide)

/-- C7, on a sample engine with two confirmed supernodes. -/
theorem pingCycle_steady_state_witness :
    pingCycle Sample.ext1 0 Sample.hunterSteady
      = Outcome.returned (Sample.hunterSteady, []) :=
  pingCycle_steady_state Sample.ext1 0 Sample.hunterSteady (by decide)

/-- C8, on the constructed sample engine before any supernode is authorized. -/
theorem pingCycle_empty_registry_witness :
    pingCycle Sample.ext1 0 (SupernodeHunter_new Sample.ext1 [Sample.peer] Sample.me)
      = Outcome.returned (SupernodeHunter_new Sample.ext1 [Sample.peer] Sample.me, []) :=
  pingCycle_empty_registry Sample.ext1 0
    (SupernodeHunter_new Sample.ext1 [Sample.peer] Sample.me) (by decide)

/-- C9, on the constructed sample engine and the address `snodeA`. -/
theorem addSnode_twice_exists_witness :
    SupernodeHunter_addSnode Sample.ext1
        (SupernodeHunter_addSnode Sample.ext1
          (SupernodeHunter_new Sample.ext1 [Sample.peer] Sample.me) Sample.snodeA).2
        Sample.snodeA
      = (Sample.ext1.SupernodeHunter_addSnode_EXISTS,
         (SupernodeHunter_addSnode Sample.ext1
           (SupernodeHunter_new Sample.ext1 [Sample.peer] Sample.me) Sample.snodeA).2) :=
  addSnode_twice_exists Sample.ext1
    (SupernodeHunter_new Sample.ext1 [Sample.peer] Sample.me) Sample.snodeA (by decide)

/-- C10, on a state whose registry holds an address of another family, for that address. -/
theorem addSnode_invalid_family_witness :
    SupernodeHunter_addSnode Sample.ext1
        { Sample.hunter1 with snodeAddrs := [Sample.snodeA, Sample.inet4] } Sample.inet4
      = (Sample.ext1.SupernodeHunter_addSnode_INVALID_FAMILY,
         { Sample.hunter1 with snodeAddrs := [Sample.snodeA, Sample.inet4] }) :=
  addSnode_invalid_family Sample.ext1
    { Sample.hunter1 with snodeAddrs := [Sample.snodeA, Sample.inet4] } Sample.inet4
    (by decide)

/-! ## The registry: listing, removal, uniqueness -/

/-- No stored entry compares equal to an address exactly when the address is not stored. -/
theorem no_equal_entry_iff (A : Sockaddr) (l : List Sockaddr) :
    (∀ sa ∈ l, Sockaddr_compare sa A ≠ 0) ↔ A ∉ l := by
  constructor
  · intro h hm
    exact h A hm ((Sockaddr_compare_eq_zero A A).mpr rfl)
  · intro h sa hm hc
    exact h ((Sockaddr_compare_eq_zero sa A).mp hc ▸ hm)

/-- For a stored address the search of `snodeIndexOf` yields the position of the first entry
equal to it, counted from the start index. -/
theorem snodeIndexOf_from_mem (A : Sockaddr) (l : List Sockaddr) (i : Nat) (h : A ∈ l) :
    ∃ (k : Nat) (l1 l2 : List Sockaddr),
      snodeIndexOf_from A l i = ((i + k : Nat) : Int) ∧ l = l1 ++ A :: l2 ∧ A ∉ l1 ∧
      l.eraseIdx k = l1 ++ l2 := by
  induction l generalizing i with
  | nil => exact absurd h (List.not_mem_nil A)
  | cons sa rest ih =>
    unfold snodeIndexOf_from
    by_cases hc : Sockaddr_compare sa A = 0
    · have hsa : sa = A := (Sockaddr_compare_eq_zero sa A).mp hc
      rw [if_pos hc]
      exact ⟨0, [], rest, rfl, by rw [hsa]; rfl, List.not_mem_nil A, rfl⟩
    · have hsa : ¬ sa = A := fun e => hc ((Sockaddr_compare_eq_zero sa A).mpr e)
      have hrest : A ∈ rest := by
        rcases List.mem_cons.mp h with e | e
        · exact absurd e.symm hsa
        · exact e
      obtain ⟨k, l1, l2, hk, hl, hn, he⟩ := ih (i + 1) hrest
      rw [if_neg hc]
      refine ⟨k + 1, sa :: l1, l2, ?_, ?_, ?_, ?_⟩
      · rw [hk]
        congr 1
        omega
      · rw [hl]
        rfl
      · intro hm
        rcases List.mem_cons.mp hm with e | e
        · exact hsa e.symm
        · exact hn e
      · rw [List.eraseIdx_cons_succ, he]
        rfl

/-- The function `SupernodeHunter_removeSnode` on an address that is not stored. -/
theorem removeSnode_not_mem (X : Ext) (snp : SupernodeHunter_pvt) (A : Sockaddr)
    (h : A ∉ snp.snodeAddrs) :
    SupernodeHunter_removeSnode X snp A = (X.SupernodeHunter_removeSnode_NONEXISTANT, snp) := by
  have hidx : snodeIndexOf snp A = -1 := (snodeIndexOf_from_eq_neg_one A _ 0).mpr h
  unfold SupernodeHunter_removeSnode
  dsimp only
  rw [if_pos hidx]

/-- The function `SupernodeHunter_removeSnode` on a stored address: the first entry equal to
it goes, the entries before and after it stay in their order. -/
theorem removeSnode_mem (X : Ext) (snp : SupernodeHunter_pvt) (A : Sockaddr)
    (h : A ∈ snp.snodeAddrs) :
    ∃ l1 l2 : List Sockaddr, snp.snodeAddrs = l1 ++ A :: l2 ∧ A ∉ l1 ∧
      SupernodeHunter_removeSnode X snp A = (0, { snp with snodeAddrs := l1 ++ l2 }) := by
  obtain ⟨k, l1, l2, hk, hl, hn, he⟩ := snodeIndexOf_from_mem A snp.snodeAddrs 0 h
  have hidx : snodeIndexOf snp A = ((0 + k : Nat) : Int) := hk
  have hne : ¬ snodeIndexOf snp A = -1 := by
    rw [hidx]
    omega
  have hnat : (snodeIndexOf snp A).toNat = k := by
    rw [hidx]
    omega
  refine ⟨l1, l2, hl, hn, ?_⟩
  unfold SupernodeHunter_removeSnode
  dsimp only
  rw [if_neg hne, hnat, he]

/-- C11: `SupernodeHunter_listSnodes` yields the stored addresses in insertion order and
their number.  On an empty registry, adding two different addresses `A` and `B` of the
accepted family and listing yields `[A, B]` and 2; and for every state, when
`SupernodeHunter_addSnode` returns 0 (the two error codes being nonzero) the listing
afterwards is the listing before with the new address appended and the count one higher. -/
theorem listSnodes_after_addSnode (X : Ext) (snp : SupernodeHunter_pvt) (A B : Sockaddr) :
    (snp.snodeAddrs = [] → A ≠ B →
      Sockaddr_getFamily A = X.Sockaddr_AF_INET6 →
      Sockaddr_getFamily B = X.Sockaddr_AF_INET6 →
      SupernodeHunter_listSnodes
          (SupernodeHunter_addSnode X (SupernodeHunter_addSnode X snp A).2 B).2
        = (2, [A, B])) ∧
    (X.SupernodeHunter_addSnode_INVALID_FAMILY ≠ 0 → X.SupernodeHunter_addSnode_EXISTS ≠ 0 →
      (SupernodeHunter_addSnode X snp A).1 = 0 →
      SupernodeHunter_listSnodes (SupernodeHunter_addSnode X snp A).2
        = ((SupernodeHunter_listSnodes snp).1 + 1, (SupernodeHunter_listSnodes snp).2 ++ [A]))
    := by
  constructor
  · intro hempty hAB hA hB
    have h1 : SupernodeHunter_addSnode X snp A = (0, { snp with snodeAddrs := [A] }) := by
      unfold SupernodeHunter_addSnode
      have hidx : ¬ snodeIndexOf snp A ≠ -1 := by
        unfold snodeIndexOf
        rw [hempty]
        exact fun h => h rfl
      rw [if_neg (not_not.mpr hA), if_neg hidx, hempty]
      rfl
    rw [h1]
    have hidx : ¬ snodeIndexOf { snp with snodeAddrs := [A] } B ≠ -1 := by
      have hn : B ∉ [A] := fun hm => hAB (List.mem_singleton.mp hm).symm
      exact not_not.mpr ((snodeIndexOf_from_eq_neg_one B [A] 0).mpr hn)
    unfold SupernodeHunter_addSnode
    rw [if_neg (not_not.mpr hB), if_neg hidx]
    rfl
  · intro hI hE h0
    unfold SupernodeHunter_addSnode at h0 ⊢
    by_cases hfam : Sockaddr_getFamily A ≠ X.Sockaddr_AF_INET6
    · rw [if_pos hfam] at h0
      exact absurd h0 hI
    · rw [if_neg hfam] at h0 ⊢
      by_cases hidx : snodeIndexOf snp A ≠ -1
      · rw [if_pos hidx] at h0
        exact absurd h0 hE
      · rw [if_neg hidx]
        unfold SupernodeHunter_listSnodes Sockaddr_clone
        dsimp only
        rw [List.length_append]
        rfl

/-- C12: with a nonzero `SupernodeHunter_removeSnode_NONEXISTANT`, `SupernodeHunter_removeSnode`
returns that code exactly when no stored entry compares equal to the address, and then the
state is unchanged; otherwise it returns 0 and the registry is the old one without the first
entry that compares equal, all other entries in their order. -/
theorem removeSnode_spec (X : Ext) (snp : SupernodeHunter_pvt) (A : Sockaddr)
    (hN : X.SupernodeHunter_removeSnode_NONEXISTANT ≠ 0) :
    ((SupernodeHunter_removeSnode X snp A).1 = X.SupernodeHunter_removeSnode_NONEXISTANT
      ↔ ∀ sa ∈ snp.snodeAddrs, Sockaddr_compare sa A ≠ 0) ∧
    ((∀ sa ∈ snp.snodeAddrs, Sockaddr_compare sa A ≠ 0) →
      SupernodeHunter_removeSnode X snp A
        = (X.SupernodeHunter_removeSnode_NONEXISTANT, snp)) ∧
    ((∃ sa ∈ snp.snodeAddrs, Sockaddr_compare sa A = 0) →
      ∃ (l1 l2 : List Sockaddr) (e : Sockaddr),
        snp.snodeAddrs = l1 ++ e :: l2 ∧ Sockaddr_compare e A = 0 ∧
        (∀ sa ∈ l1, Sockaddr_compare sa A ≠ 0) ∧
        SupernodeHunter_removeSnode X snp A = (0, { snp with snodeAddrs := l1 ++ l2 })) := by
  refine ⟨?_, ?_, ?_⟩
  · constructor
    · intro hret
      by_contra hnot
      have hm : A ∈ snp.snodeAddrs := by
        by_contra hn
        exact hnot ((no_equal_entry_iff A _).mpr hn)
      obtain ⟨l1, l2, -, -, hrem⟩ := removeSnode_mem X snp A hm
      rw [hrem] at hret
      exact hN hret.symm
    · intro h
      rw [removeSnode_not_mem X snp A ((no_equal_entry_iff A _).mp h)]
  · intro h
    exact removeSnode_not_mem X snp A ((no_equal_entry_iff A _).mp h)
  · rintro ⟨sa, hm, hc⟩
    have hA : A ∈ snp.snodeAddrs := (Sockaddr_compare_eq_zero sa A).mp hc ▸ hm
    obtain ⟨l1, l2, hl, hn, hrem⟩ := removeSnode_mem X snp A hA
    exact ⟨l1, l2, A, hl, (Sockaddr_compare_eq_zero A A).mpr rfl,
      (no_equal_entry_iff A l1).mpr hn, hrem⟩

/-- A returning `onReply` leaves the registry alone. -/
theorem onReply_snodeAddrs (X : Ext) (snp snp1 : SupernodeHunter_pvt) (msg : Dict)
    (src : Option Address) (prom : MsgCore_Promise)
    (h : onReply X snp msg src prom = some snp1) : snp1.snodeAddrs = snp.snodeAddrs := by
  have hparse : ∀ (s : SupernodeHunter_pvt) (a : Address),
      onReply_parse X s msg a prom.userData = some snp1 → snp1.snodeAddrs = s.snodeAddrs := by
    intro s a hp
    unfold onReply_parse at hp
    split at hp
    · cases hp
      rfl
    · exact (onReply_results_frame _ _ s snp1 hp).2.1
  unfold onReply at h
  dsimp only at h
  split at h
  · cases h
    rfl
  · split at h
    · split at h
      · cases h
        rfl
      · split at h
        · cases h
          rfl
        · split at h
          · cases h
            rfl
          · split at h
            · have h2 := hparse _ _ h
              exact h2
            · have h2 := hparse _ _ h
              exact h2
    · exact hparse _ _ h

/-- In every reachable state the registry holds no address twice and only addresses of the
accepted family. -/
theorem Reachable_registry (X : Ext) (snp : SupernodeHunter_pvt) (h : Reachable X snp) :
    snp.snodeAddrs.Nodup ∧ ∀ sa ∈ snp.snodeAddrs, Sockaddr_getFamily sa = X.Sockaddr_AF_INET6
    := by
  induction h with
  | constructed peers myAddress => exact ⟨List.nodup_nil, fun sa hm => absurd hm (List.not_mem_nil sa)⟩
  | onCycle fuel qs _ hstep ih =>
    rw [(pingCycle_frame X fuel _ _ qs hstep).2.2.1]
    exact ih
  | onReply msg src prom _ hstep ih =>
    rw [onReply_snodeAddrs X _ _ msg src prom hstep]
    exact ih
  | @addSnode s udpAddr _ ih =>
    unfold SupernodeHunter_addSnode
    by_cases hfam : Sockaddr_getFamily udpAddr ≠ X.Sockaddr_AF_INET6
    · rw [if_pos hfam]
      exact ih
    · rw [if_neg hfam]
      by_cases hidx : snodeIndexOf s udpAddr ≠ -1
      · rw [if_pos hidx]
        exact ih
      · rw [if_neg hidx]
        have hn : udpAddr ∉ s.snodeAddrs :=
          (snodeIndexOf_from_eq_neg_one udpAddr _ 0).mp (not_not.mp hidx)
        constructor
        · show (s.snodeAddrs ++ [udpAddr]).Nodup
          refine List.Nodup.append ih.1 (List.nodup_singleton _) ?_
          intro a ha hb
          exact hn (List.mem_singleton.mp hb ▸ ha)
        · intro sa hm
          rcases List.mem_append.mp hm with e | e
          · exact ih.2 sa e
          · rw [List.mem_singleton.mp e]
            exact not_not.mp hfam
  | @removeSnode s toRemove _ ih =>
    by_cases hm : toRemove ∈ s.snodeAddrs
    · obtain ⟨l1, l2, hl, -, hrem⟩ := removeSnode_mem X s toRemove hm
      rw [hrem]
      have hsub : List.Sublist (l1 ++ l2) s.snodeAddrs := by
        rw [hl]
        exact List.Sublist.append_left (List.sublist_cons_self _ _) l1
      exact ⟨ih.1.sublist hsub, fun sa h => ih.2 sa (hsub.subset h)⟩
    · rw [removeSnode_not_mem X s toRemove hm]
      exact ih
  | peersChanged peers _ ih => exact ih

/-- C13: in every state reachable from a constructed engine, whose registry is empty, by
`SupernodeHunter_addSnode` and `SupernodeHunter_removeSnode` calls (and the callbacks), no two
stored entries compare equal; and when `SupernodeHunter_removeSnode` of an address returns 0
(`SupernodeHunter_removeSnode_NONEXISTANT` being nonzero), no entry equal to the address is
left and `SupernodeHunter_addSnode` of that address then returns 0 and appends it. -/
theorem registry_uniqueness_invariant (X : Ext) (snp : SupernodeHunter_pvt) (A : Sockaddr)
    (h : Reachable X snp) (hN : X.SupernodeHunter_removeSnode_NONEXISTANT ≠ 0) :
    snp.snodeAddrs.Pairwise
      (fun a b => Sockaddr_compare a b ≠ 0 ∧ Sockaddr_compare b a ≠ 0) ∧
    ((SupernodeHunter_removeSnode X snp A).1 = 0 →
      (∀ sa ∈ (SupernodeHunter_removeSnode X snp A).2.snodeAddrs, Sockaddr_compare sa A ≠ 0) ∧
      SupernodeHunter_addSnode X (SupernodeHunter_removeSnode X snp A).2 A
        = (0, { (SupernodeHunter_removeSnode X snp A).2 with
                snodeAddrs := (SupernodeHunter_removeSnode X snp A).2.snodeAddrs ++ [A] }))
    := by
  obtain ⟨hnd, hfam⟩ := Reachable_registry X snp h
  constructor
  · refine List.Pairwise.imp ?_ hnd
    intro a b hab
    exact ⟨fun hc => hab ((Sockaddr_compare_eq_zero a b).mp hc),
      fun hc => hab ((Sockaddr_compare_eq_zero b a).mp hc).symm⟩
  · intro hret
    by_cases hm : A ∈ snp.snodeAddrs
    · obtain ⟨l1, l2, hl, hn1, hrem⟩ := removeSnode_mem X snp A hm
      have hn2 : A ∉ l2 := by
        intro hm2
        rw [hl] at hnd
        have hnd2 : (A :: l2).Nodup := (List.nodup_append.mp hnd).2.1
        exact (List.nodup_cons.mp hnd2).1 hm2
      have hn : A ∉ l1 ++ l2 := by
        intro hmem
        rcases List.mem_append.mp hmem with e | e
        · exact hn1 e
        · exact hn2 e
      rw [hrem]
      refine ⟨(no_equal_entry_iff A _).mpr hn, ?_⟩
      have hidx : ¬ snodeIndexOf { snp with snodeAddrs := l1 ++ l2 } A ≠ -1 :=
        not_not.mpr ((snodeIndexOf_from_eq_neg_one A (l1 ++ l2) 0).mpr hn)
      have hA : ¬ Sockaddr_getFamily A ≠ X.Sockaddr_AF_INET6 := not_not.mpr (hfam A hm)
      unfold SupernodeHunter_addSnode
      rw [if_neg hA, if_neg hidx]
      rfl
    · rw [removeSnode_not_mem X snp A hm] at hret
      exact absurd hret hN

/-! ## The loop over the parsed node list, by kind of pending query -/

/-- For a pending query without search target the loop over the parsed node list returns and
changes `nodes` only: every result that is not the own host is added, after a flush when the
pool holds `SupernodeHunter_pvt_nodes_MAX` or more. -/
theorem onReply_results_getPeers (q : Query) (hq : q.searchTar = none)
    (results : List Address) (snp : SupernodeHunter_pvt) :
    onReply_results q snp results = some { snp with
      nodes := results.foldl
        (fun nodes e =>
          if Address_isSameIp e snp.myAddress then nodes
          else AddrSet_add
            (if nodes.length ≥ SupernodeHunter_pvt_nodes_MAX then AddrSet_flush nodes
             else nodes) e)
        snp.nodes } := by
  induction results generalizing snp with
  | nil => rfl
  | cons elem rest ih =>
    rw [onReply_results, hq]
    dsimp only
    by_cases hip : Address_isSameIp elem snp.myAddress = true
    · rw [if_pos hip, ih snp, List.foldl_cons, if_pos hip]
    · rw [if_neg hip, ih, List.foldl_cons, if_neg hip]

/-- For a pending query with a search target of 16 address bytes the loop over the parsed
node list returns and changes `snodeCandidates` only: every result whose 16 address bytes
equal the target's is added, after a flush when the pool holds
`SupernodeHunter_pvt_snodeCandidates_MAX` or more; every other result is dropped. -/
theorem onReply_results_findNode (q : Query) (T : Sockaddr) (hq : q.searchTar = some T)
    (h16 : T.address.length = 16) (results : List Address) (snp : SupernodeHunter_pvt) :
    onReply_results q snp results = some { snp with
      snodeCandidates := results.foldl
        (fun cands e =>
          if e.ip6.take 16 = T.address.take 16 then
            AddrSet_add
              (if cands.length ≥ SupernodeHunter_pvt_snodeCandidates_MAX then
                 AddrSet_flush cands
               else cands) e
          else cands)
        snp.snodeCandidates } := by
  have hassert : ¬ (Sockaddr_getAddress T).1 ≠ 16 := by
    unfold Sockaddr_getAddress
    rw [h16]
    exact fun h => h rfl
  induction results generalizing snp with
  | nil => rfl
  | cons elem rest ih =>
    rw [onReply_results, hq]
    dsimp only
    rw [if_neg hassert]
    by_cases hm : elem.ip6.take 16 = T.address.take 16
    · have hcmp : Bits_memcmp elem.ip6 (Sockaddr_getAddress T).2 16 = 0 := by
        unfold Bits_memcmp Sockaddr_getAddress
        rw [if_pos hm]
      rw [if_pos hcmp, ih, List.foldl_cons, if_pos hm]
    · have hcmp : ¬ Bits_memcmp elem.ip6 (Sockaddr_getAddress T).2 16 = 0 := by
        unfold Bits_memcmp Sockaddr_getAddress
        rw [if_neg hm]
        exact one_ne_zero
      rw [if_neg hcmp, ih snp, List.foldl_cons, if_neg hm]

/-- What the getPeers loop leaves in `nodes` was there before or is not the own host. -/
theorem foldl_getPeers_mem (my : Address) (results : List Address) (nodes : AddrSet)
    (a : Address)
    (h : a ∈ results.foldl
      (fun nodes e =>
        if Address_isSameIp e my then nodes
        else AddrSet_add
          (if nodes.length ≥ SupernodeHunter_pvt_nodes_MAX then AddrSet_flush nodes
           else nodes) e)
      nodes) :
    a ∈ nodes ∨ (a ∈ results ∧ Address_isSameIp a my = false) := by
  induction results generalizing nodes with
  | nil => exact Or.inl h
  | cons elem rest ih =>
    rw [List.foldl_cons] at h
    rcases ih _ h with h1 | ⟨h1, h2⟩
    · by_cases hip : Address_isSameIp elem my = true
      · rw [if_pos hip] at h1
        exact Or.inl h1
      · rw [if_neg hip] at h1
        unfold AddrSet_add AddrSet_flush at h1
        rcases List.mem_append.mp h1 with e | e
        · by_cases hfull : nodes.length ≥ SupernodeHunter_pvt_nodes_MAX
          · rw [if_pos hfull] at e
            exact absurd e (List.not_mem_nil a)
          · rw [if_neg hfull] at e
            exact Or.inl e
        · rw [List.mem_singleton.mp e]
          exact Or.inr ⟨List.mem_cons_self _ _, Bool.eq_false_iff.mpr hip⟩
    · exact Or.inr ⟨List.mem_cons_of_mem _ h1, h2⟩

/-- For a pending query without search target the part of `onReply` from the node-list
decoder on returns, changes `nodes` only and adds no address of the own host. -/
theorem onReply_parse_getPeers (X : Ext) (q : Query) (hq : q.searchTar = none)
    (snp : SupernodeHunter_pvt) (msg : Dict) (src : Address) :
    ∃ snp1, onReply_parse X snp msg src q = some snp1 ∧
      snp1.myAddress = snp.myAddress ∧ snp1.snodes = snp.snodes ∧
      snp1.snodeCandidates = snp.snodeCandidates ∧
      ∀ a ∈ snp1.nodes, a ∈ snp.nodes ∨
        (∃ results, X.ReplySerializer_parse src msg = some results ∧ a ∈ results) ∧
          Address_isSameIp a snp.myAddress = false := by
  unfold onReply_parse
  cases hp : X.ReplySerializer_parse src msg with
  | none => exact ⟨snp, rfl, rfl, rfl, rfl, fun a h => Or.inl h⟩
  | some results =>
    dsimp only
    rw [onReply_results_getPeers q hq results snp]
    refine ⟨_, rfl, rfl, rfl, rfl, ?_⟩
    intro a ha
    rcases foldl_getPeers_mem snp.myAddress results snp.nodes a ha with h | ⟨h1, h2⟩
    · exact Or.inl h
    · exact Or.inr ⟨⟨results, rfl, h1⟩, h2⟩

/-- C14: for every state and every reply to a pending query without search target,
`onReply` returns, and every address in `nodes` afterwards was there before or is an address
of the parsed node list that is not the own host (`Address_isSameIp` with `myAddress`
false); so when `nodes` held no address of the own host before, it holds none after. -/
theorem getPeers_self_filtering (X : Ext) (snp : SupernodeHunter_pvt) (msg : Dict)
    (src : Option Address) (prom : MsgCore_Promise)
    (hq : prom.userData.searchTar = none) :
    ∃ snp1, onReply X snp msg src prom = some snp1 ∧ snp1.myAddress = snp.myAddress ∧
      (∀ a ∈ snp1.nodes, a ∈ snp.nodes ∨ Address_isSameIp a snp.myAddress = false) ∧
      ((∀ a ∈ snp.nodes, Address_isSameIp a snp.myAddress = false) →
        ∀ a ∈ snp1.nodes, Address_isSameIp a snp1.myAddress = false) := by
  have key : ∃ snp1, onReply X snp msg src prom = some snp1 ∧
      snp1.myAddress = snp.myAddress ∧
      ∀ a ∈ snp1.nodes, a ∈ snp.nodes ∨ Address_isSameIp a snp.myAddress = false := by
    have hparse : ∀ (s : SupernodeHunter_pvt) (a : Address),
        s.myAddress = snp.myAddress → s.nodes = snp.nodes →
        ∃ snp1, onReply_parse X s msg a prom.userData = some snp1 ∧
          snp1.myAddress = snp.myAddress ∧
          ∀ a ∈ snp1.nodes, a ∈ snp.nodes ∨ Address_isSameIp a snp.myAddress = false := by
      intro s a hmy hnodes
      obtain ⟨s1, h1, h2, -, -, h3⟩ := onReply_parse_getPeers X prom.userData hq s msg a
      refine ⟨s1, h1, h2.trans hmy, ?_⟩
      intro x hx
      rcases h3 x hx with h | ⟨-, h⟩
      · exact Or.inl (hnodes ▸ h)
      · exact Or.inr (hmy ▸ h)
    unfold onReply
    dsimp only
    cases src with
    | none => exact ⟨snp, rfl, rfl, fun a h => Or.inl h⟩
    | some a =>
      dsimp only
      split
      · split
        · exact ⟨snp, rfl, rfl, fun a h => Or.inl h⟩
        · split
          · exact ⟨snp, rfl, rfl, fun a h => Or.inl h⟩
          · split
            · exact ⟨snp, rfl, rfl, fun a h => Or.inl h⟩
            · split
              · exact hparse _ _ rfl rfl
              · exact hparse _ _ rfl rfl
      · exact hparse _ _ rfl rfl
  obtain ⟨snp1, h1, h2, h3⟩ := key
  refine ⟨snp1, h1, h2, h3, ?_⟩
  intro hclean a ha
  rw [h2]
  rcases h3 a ha with h | h
  · exact hclean a h
  · exact h

/-! ## One discovery cycle -/

/-- C16: with at most one confirmed supernode, a non-empty registry (of 16-byte addresses, as
every address of the accepted family is), no candidate, `L > 0` addresses in `peers` and
`nodes` together and the supernode cursor a `uint32_t`, `pingCycle` returns for every budget
above `(c >> 1) / L`, with exactly one query, whose target is element `(c >> 1) mod L` of
`peers ++ nodes`; the traversal cursor becomes `(c + 1) mod 2^32`, the supernode cursor
`(old + (c >> 1) / L) mod 2^32`, and pools and registry stay as they were. -/
theorem pingCycle_discovery_step (X : Ext) (fuel : Nat) (snp : SupernodeHunter_pvt)
    (hconf : snp.snodes.length ≤ 1) (hreg : snp.snodeAddrs ≠ [])
    (h16 : ∀ sa ∈ snp.snodeAddrs, sa.address.length = 16)
    (hcand : snp.snodeCandidates = [])
    (hL : 0 < snp.peers.length + snp.nodes.length) (hs : snp.snodeAddrIdx < 2 ^ 32)
    (hfuel : (snp.nodeListIndex >>> 1) / (snp.peers.length + snp.nodes.length) < fuel) :
    ∃ p : MsgCore_Promise,
      pingCycle X fuel snp = Outcome.returned
        ({ snp with
            nodeListIndex := (snp.nodeListIndex + 1) % 2 ^ 32
            snodeAddrIdx := (snp.snodeAddrIdx + (snp.nodeListIndex >>> 1)
              / (snp.peers.length + snp.nodes.length)) % 2 ^ 32 }, [p]) ∧
      (snp.peers ++ snp.nodes)[(snp.nodeListIndex >>> 1)
          % (snp.peers.length + snp.nodes.length)]? = some p.target := by
  obtain ⟨t, d, ht, -, hstep⟩ :=
    pingCycle_discovery X fuel snp hconf hreg h16 hcand hL hs hfuel
  refine ⟨_, hstep, ?_⟩
  rw [ht]
  split <;> rfl

/-- C17: in a discovery cycle (conditions as for C16) the query follows the low bit of the
traversal cursor `c`: for odd `c` it is a `gp` with `tar` the 8 bytes 0 0 0 0 0 0 0 1 and no
search target; for even `c` it is an `fn` with `tar` the 16 address bytes of the registry
entry under the advanced supernode cursor modulo the registry length, and that entry is the
search target; `isGetRoute` is false in both. -/
theorem pingCycle_discovery_query (X : Ext) (fuel : Nat) (snp : SupernodeHunter_pvt)
    (hconf : snp.snodes.length ≤ 1) (hreg : snp.snodeAddrs ≠ [])
    (h16 : ∀ sa ∈ snp.snodeAddrs, sa.address.length = 16)
    (hcand : snp.snodeCandidates = [])
    (hL : 0 < snp.peers.length + snp.nodes.length) (hs : snp.snodeAddrIdx < 2 ^ 32)
    (hfuel : (snp.nodeListIndex >>> 1) / (snp.peers.length + snp.nodes.length) < fuel) :
    ∃ (p : MsgCore_Promise) (snp1 : SupernodeHunter_pvt) (desiredSnode : Sockaddr),
      pingCycle X fuel snp = Outcome.returned (snp1, [p]) ∧
      snp1.snodeAddrIdx = (snp.snodeAddrIdx + (snp.nodeListIndex >>> 1)
        / (snp.peers.length + snp.nodes.length)) % 2 ^ 32 ∧
      snp.snodeAddrs[snp1.snodeAddrIdx % snp.snodeAddrs.length]? = some desiredSnode ∧
      desiredSnode.address.length = 16 ∧
      p.userData.isGetRoute = false ∧
      (snp.nodeListIndex % 2 = 1 →
        Dict_getStringC p.msg "q" = some (cstr "gp") ∧
        Dict_getStringC p.msg "tar" = some [0, 0, 0, 0, 0, 0, 0, 1] ∧
        p.userData.searchTar = none) ∧
      (snp.nodeListIndex % 2 = 0 →
        Dict_getStringC p.msg "q" = some (cstr "fn") ∧
        Dict_getStringC p.msg "tar" = some desiredSnode.address ∧
        p.userData.searchTar = some desiredSnode) := by
  obtain ⟨t, d, -, hd, hstep⟩ :=
    pingCycle_discovery X fuel snp hconf hreg h16 hcand hL hs hfuel
  have hdlen : d.address.length = 16 := h16 d (List.getElem?_mem hd)
  have htake : d.address.take 16 = d.address := List.take_of_length_le (Nat.le_of_eq hdlen)
  have hbit : snp.nodeListIndex &&& 1 = snp.nodeListIndex % 2 := Nat.and_one_is_mod _
  refine ⟨_, _, d, hstep, rfl, hd, hdlen, ?_, ?_, ?_⟩
  · split <;> rfl
  · intro hodd
    have hgp : (snp.nodeListIndex &&& 1 != 0) = true := by
      rw [hbit, hodd]
      rfl
    rw [if_pos hgp]
    exact ⟨rfl, rfl, rfl⟩
  · intro heven
    have hgp : ¬ (snp.nodeListIndex &&& 1 != 0) = true := by
      rw [hbit, heven]
      exact fun h => Bool.noConfusion h
    rw [if_neg hgp, htake]
    exact ⟨rfl, rfl, rfl⟩

/-! ## Replies by kind of pending query -/

/-- The part of `onReply` from the node-list decoder on never touches the confirmed pool. -/
theorem onReply_parse_snodes (X : Ext) (snp snp1 : SupernodeHunter_pvt) (msg : Dict)
    (src : Address) (q : Query) (h : onReply_parse X snp msg src q = some snp1) :
    snp1.snodes = snp.snodes := by
  unfold onReply_parse at h
  split at h
  · cases h
    rfl
  · exact (onReply_results_frame q _ snp snp1 h).1

/-- C18: for a reply with a responder to a getRoute query (`isGetRoute` set, no search
target, as `pingCycle` creates them) that has no `error` string and a 20-byte `label` that
parses to `p`, `onReply` returns; if the responder's path is `p` and the responder is
`Address_isSame` as the query target, the responder is added to the confirmed pool and the
candidate pool stays; in every other case the confirmed pool stays and the responder with
its path overwritten by `p` is added to the candidate pool.  A reply to a query whose
`isGetRoute` is not set never changes the confirmed pool. -/
theorem onReply_getRoute_classification (X : Ext) (snp : SupernodeHunter_pvt) (msg : Dict)
    (prom : MsgCore_Promise) :
    (prom.userData.isGetRoute = true → prom.userData.searchTar = none →
      ∀ (src : Address) (l : Bytes) (p : Nat),
        Dict_getStringC msg "error" = none → Dict_getStringC msg "label" = some l →
        l.length = 20 → X.AddrTools_parsePath l = some p →
        ∃ snp1, onReply X snp msg (some src) prom = some snp1 ∧
          ((src.path = p ∧ Address_isSame src prom.target = true) →
            snp1.snodes = AddrSet_add snp.snodes src ∧
            snp1.snodeCandidates = snp.snodeCandidates) ∧
          (¬ (src.path = p ∧ Address_isSame src prom.target = true) →
            snp1.snodes = snp.snodes ∧
            snp1.snodeCandidates
              = AddrSet_add snp.snodeCandidates { src with path := p })) ∧
    (prom.userData.isGetRoute = false →
      ∀ (src : Option Address) (snp1 : SupernodeHunter_pvt),
        onReply X snp msg src prom = some snp1 → snp1.snodes = snp.snodes) := by
  constructor
  · intro hgr hq src l p herr hlabel hlen hp
    have hlen1 : ¬ l.length ≠ 20 := not_not.mpr hlen
    unfold onReply
    dsimp only
    rw [if_pos hgr, herr]
    dsimp only
    rw [hlabel]
    dsimp only
    rw [if_neg hlen1, hp]
    dsimp only
    by_cases hc : src.path = p ∧ Address_isSame src prom.target = true
    · rw [if_pos hc]
      obtain ⟨s1, h1, -, h3, h4, -⟩ := onReply_parse_getPeers X prom.userData hq
        { snp with snodes := AddrSet_add snp.snodes src } msg src
      exact ⟨s1, h1, fun _ => ⟨h3, h4⟩, fun hn => absurd hc hn⟩
    · rw [if_neg hc]
      obtain ⟨s1, h1, -, h3, h4, -⟩ := onReply_parse_getPeers X prom.userData hq
        { snp with snodeCandidates := AddrSet_add snp.snodeCandidates { src with path := p } }
        msg { src with path := p }
      exact ⟨s1, h1, fun hy => absurd hy hc, fun _ => ⟨h3, h4⟩⟩
  · intro hgr src snp1 h
    unfold onReply at h
    dsimp only at h
    cases src with
    | none =>
      cases h
      rfl
    | some a =>
      dsimp only at h
      rw [hgr] at h
      exact onReply_parse_snodes X snp snp1 msg a _ h

/-- C19: for a reply with a responder to a findNode query (search target `T` of 16 address
bytes, `isGetRoute` not set), `onReply` returns and changes the candidate pool only: going
through the parsed node list in order, an address is added exactly when its 16 address
bytes equal those of `T`, after a flush when the pool holds 8 or more; every other address
is dropped; `nodes` and the confirmed pool stay as they were. -/
theorem onReply_findNode_filtering (X : Ext) (snp : SupernodeHunter_pvt) (msg : Dict)
    (src : Address) (prom : MsgCore_Promise) (T : Sockaddr)
    (hq : prom.userData.searchTar = some T) (hgr : prom.userData.isGetRoute = false)
    (h16 : T.address.length = 16) :
    onReply X snp msg (some src) prom = some { snp with
      snodeCandidates := ((X.ReplySerializer_parse src msg).getD []).foldl
        (fun cands e =>
          if e.ip6.take 16 = T.address.take 16 then
            AddrSet_add (if cands.length ≥ 8 then AddrSet_flush cands else cands) e
          else cands)
        snp.snodeCandidates } := by
  unfold onReply
  dsimp only
  rw [hgr]
  simp only [Bool.false_eq_true, if_false]
  unfold onReply_parse
  cases hp : X.ReplySerializer_parse src msg with
  | none => rfl
  | some results =>
    dsimp only
    rw [onReply_results_findNode prom.userData T hq h16 results snp]
    rfl

end SupernodeHunter

namespace SystemRandomSeed

/-! ## The provider list built by `SystemRandomSeed_new` -/

/-- The cells of a NULL-terminated array: the providers, then the NULL. -/
theorem nullTerminated_getElem? (l : List RandomSeed_Provider) (i : Nat) (h : i ≤ l.length) :
    (nullTerminated l)[i]? = if h1 : i < l.length then some (some (l.get ⟨i, h1⟩))
      else some none := by
  unfold nullTerminated
  by_cases h1 : i < l.length
  · have h2 : i < (l.map some).length := by rw [List.length_map]; exact h1
    rw [dif_pos h1, List.getElem?_append_left h2, List.getElem?_map,
      List.getElem?_eq_getElem h1]
    rfl
  · have h2 : i = l.length := Nat.le_antisymm h (Nat.le_of_not_lt h1)
    have h3 : (l.map some).length ≤ i := by rw [List.length_map, h2]
    rw [dif_neg h1, List.getElem?_append_right h3, List.length_map, h2, Nat.sub_self]
    rfl

/-- The first loop counts the providers before the NULL. -/
theorem countLoop_nullTerminated (l : List RandomSeed_Provider) (fuel i providerCount : Nat)
    (hi : i ≤ l.length) (hfuel : l.length - i < fuel) :
    countLoop (nullTerminated l) fuel i providerCount
      = Run.done (providerCount + (l.length - i)) := by
  induction fuel generalizing i providerCount with
  | zero => exact absurd hfuel (Nat.not_lt_zero _)
  | succ n ih =>
    rw [countLoop, nullTerminated_getElem? l i hi]
    by_cases h1 : i < l.length
    · rw [dif_pos h1]
      dsimp only
      rw [ih (i + 1) (providerCount + 1) h1 (by omega)]
      congr 1
      omega
    · rw [dif_neg h1]
      dsimp only
      congr 1
      omega

/-- The second loop on a zeroed array stops before its first copy. -/
theorem copyAdditionalLoop_zeroed (ap : ProviderArray) (fuel n : Nat) :
    copyAdditionalLoop ap (fuel + 1) (List.replicate (n + 1) none) 0 0
      = Run.done (List.replicate (n + 1) none, 0) := by
  rw [copyAdditionalLoop, List.replicate_succ, List.getElem?_cons_zero]

/-- The third loop on a zeroed array of at least three cells copies entries 0, 2 and 4 of
`PROVIDERS` to the cells 0, 1 and 2. -/
theorem copyBuiltinLoop_zeroed (fuel n : Nat) :
    copyBuiltinLoop (fuel + 4) (List.replicate (n + 3) none) 0 0
      = Run.done ([some RandomSeed_Provider.RtlGenRandomSeed_new,
          some RandomSeed_Provider.DevUrandomRandomSeed_new,
          some RandomSeed_Provider.ProcSysKernelRandomUuidRandomSeed_new]
          ++ List.replicate n none) := by
  simp [copyBuiltinLoop, PROVIDERS, PROVIDERS_COUNT, List.replicate_succ]

/-- C20: what `SystemRandomSeed_new` hands to `RandomSeed_new`.  For every NULL-terminated
list of `n` additional providers (and for a NULL argument, `n = 0`) and every budget of at
least `n + 4` loop iterations the function returns without reaching outside an array, and
the array of `5 + n` cells holds `RtlGenRandomSeed_new`, `DevUrandomRandomSeed_new` and
`ProcSysKernelRandomUuidRandomSeed_new` followed by NULL cells only: no additional provider
and only three of the five built-in ones, which is not the list the claim describes. -/
theorem SystemRandomSeed_new_result (l : List RandomSeed_Provider) (fuel : Nat)
    (hfuel : l.length + 4 ≤ fuel) :
    SystemRandomSeed_new fuel (some (nullTerminated l))
      = Run.done ([some RandomSeed_Provider.RtlGenRandomSeed_new,
          some RandomSeed_Provider.DevUrandomRandomSeed_new,
          some RandomSeed_Provider.ProcSysKernelRandomUuidRandomSeed_new]
          ++ List.replicate (l.length + 2) none) ∧
    SystemRandomSeed_new fuel none
      = Run.done [some RandomSeed_Provider.RtlGenRandomSeed_new,
          some RandomSeed_Provider.DevUrandomRandomSeed_new,
          some RandomSeed_Provider.ProcSysKernelRandomUuidRandomSeed_new, none, none] ∧
    SystemRandomSeed_new fuel (some (nullTerminated l))
      ≠ Run.done (l.map some ++ PROVIDERS.map some) ∧
    SystemRandomSeed_new fuel none ≠ Run.done (PROVIDERS.map some) := by
  obtain ⟨k, rfl⟩ : ∃ k, fuel = k + 4 := ⟨fuel - 4, by omega⟩
  have hsome : SystemRandomSeed_new (k + 4) (some (nullTerminated l))
      = Run.done ([some RandomSeed_Provider.RtlGenRandomSeed_new,
          some RandomSeed_Provider.DevUrandomRandomSeed_new,
          some RandomSeed_Provider.ProcSysKernelRandomUuidRandomSeed_new]
          ++ List.replicate (l.length + 2) none) := by
    unfold SystemRandomSeed_new
    dsimp only
    rw [countLoop_nullTerminated l (k + 4) 0 PROVIDERS_COUNT (Nat.zero_le _) (by omega)]
    dsimp only
    have hcount : PROVIDERS_COUNT + (l.length - 0) = (l.length + 4) + 1 := by
      unfold PROVIDERS_COUNT
      omega
    rw [hcount, copyAdditionalLoop_zeroed (nullTerminated l) (k + 3) (l.length + 4)]
    dsimp only
    exact copyBuiltinLoop_zeroed k (l.length + 2)
  have hnone : SystemRandomSeed_new (k + 4) none
      = Run.done [some RandomSeed_Provider.RtlGenRandomSeed_new,
          some RandomSeed_Provider.DevUrandomRandomSeed_new,
          some RandomSeed_Provider.ProcSysKernelRandomUuidRandomSeed_new, none, none] := by
    unfold SystemRandomSeed_new
    dsimp only
    exact copyBuiltinLoop_zeroed k 2
  refine ⟨hsome, hnone, ?_, ?_⟩
  · rw [hsome]
    intro h
    have hlist := Run.done.inj h
    have hmem : (none : Option RandomSeed_Provider) ∈ l.map some ++ PROVIDERS.map some := by
      rw [← hlist]
      refine List.mem_append_right _ ?_
      rw [List.replicate_succ]
      exact List.mem_cons_self _ _
    rcases List.mem_append.mp hmem with e | e
    · obtain ⟨x, -, hx⟩ := List.mem_map.mp e
      exact Option.noConfusion hx
    · obtain ⟨x, -, hx⟩ := List.mem_map.mp e
      exact Option.noConfusion hx
  · rw [hnone]
    decide

/-- C20, for two additional providers and a budget of ten loop iterations. -/
theorem SystemRandomSeed_new_result_witness :
    SystemRandomSeed_new 10
        (some (nullTerminated [RandomSeed_Provider.other 1, RandomSeed_Provider.other 2]))
      = Run.done ([some RandomSeed_Provider.RtlGenRandomSeed_new,
          some RandomSeed_Provider.DevUrandomRandomSeed_new,
          some RandomSeed_Provider.ProcSysKernelRandomUuidRandomSeed_new]
          ++ List.replicate
            ([RandomSeed_Provider.other 1, RandomSeed_Provider.other 2].length + 2) none) ∧
    SystemRandomSeed_new 10 none
      = Run.done [some RandomSeed_Provider.RtlGenRandomSeed_new,
          some RandomSeed_Provider.DevUrandomRandomSeed_new,
          some RandomSeed_Provider.ProcSysKernelRandomUuidRandomSeed_new, none, none] ∧
    SystemRandomSeed_new 10
        (some (nullTerminated [RandomSeed_Provider.other 1, RandomSeed_Provider.other 2]))
      ≠ Run.done ([RandomSeed_Provider.other 1, RandomSeed_Provider.other 2].map some
          ++ PROVIDERS.map some) ∧
    SystemRandomSeed_new 10 none ≠ Run.done (PROVIDERS.map some) :=
  SystemRandomSeed_new_result [RandomSeed_Provider.other 1, RandomSeed_Provider.other 2] 10
    (by decide)

end SystemRandomSeed

namespace SupernodeHunter

/-! ## The end-to-end scenario -/

/-- The findNode loop adds the matching results and only them. -/
theorem foldl_findNode_filter (T : Sockaddr) (results : List Address) (cands : AddrSet) :
    results.foldl
      (fun cands e =>
        if e.ip6.take 16 = T.address.take 16 then
          AddrSet_add
            (if cands.length ≥ SupernodeHunter_pvt_snodeCandidates_MAX then
               AddrSet_flush cands
             else cands) e
        else cands)
      cands
    = (results.filter (fun e => decide (e.ip6.take 16 = T.address.take 16))).foldl
      (fun cands e =>
        AddrSet_add
          (if cands.length ≥ SupernodeHunter_pvt_snodeCandidates_MAX then AddrSet_flush cands
           else cands) e)
      cands := by
  induction results generalizing cands with
  | nil => rfl
  | cons elem rest ih =>
    by_cases hm : elem.ip6.take 16 = T.address.take 16
    · rw [List.foldl_cons, if_pos hm, List.filter_cons_of_pos (by simpa using hm),
        List.foldl_cons, ih]
    · rw [List.foldl_cons, if_neg hm, List.filter_cons_of_neg (by simpa using hm), ih]

/-- C15, as amended: a constructed engine with at least one peer, after an address `S` of
the accepted family with 16 address bytes was authorized.  The first timer callback returns
(for every budget of at least one loop iteration) with one `fn` query to the first peer; a
reply to it whose parsed node list holds exactly one address `a` with the 16 address bytes
of `S` leaves the candidate pool as `[a]`, length 1; the next timer callback returns with
one `gr` query to `a`; and a reply to that one without `error` string, with a 20-byte label
that parses to the responder's path, from a responder that is `Address_isSame` as `a`,
leaves the confirmed pool as the responder alone, length 1. -/
theorem end_to_end_scenario (X : Ext) (fuel : Nat) (peer : Address) (peers : AddrSet)
    (myAddress : Address) (S : Sockaddr) (msg1 msg2 : Dict) (r1 r2 a : Address)
    (results : List Address) (l : Bytes)
    (hS : Sockaddr_getFamily S = X.Sockaddr_AF_INET6) (hS16 : S.address.length = 16)
    (hparse : X.ReplySerializer_parse r1 msg1 = some results)
    (hone : results.filter (fun e => decide (e.ip6.take 16 = S.address.take 16)) = [a])
    (herr : Dict_getStringC msg2 "error" = none)
    (hlabel : Dict_getStringC msg2 "label" = some l) (hlen : l.length = 20)
    (hpath : X.AddrTools_parsePath l = some r2.path)
    (hsame : Address_isSame r2 a = true) :
    ∃ (p1 p2 : MsgCore_Promise) (s1 s2 s3 : SupernodeHunter_pvt),
      pingCycle X (fuel + 1)
          (SupernodeHunter_addSnode X (SupernodeHunter_new X (peer :: peers) myAddress) S).2
        = Outcome.returned (s1, [p1]) ∧
      Dict_getStringC p1.msg "q" = some (cstr "fn") ∧ p1.target = peer ∧
      onReply X s1 msg1 (some r1) p1 = some s2 ∧
      s2.snodeCandidates = [a] ∧ s2.snodeCandidates.length = 1 ∧
      pingCycle X fuel s2 = Outcome.returned (s2, [p2]) ∧
      Dict_getStringC p2.msg "q" = some (cstr "gr") ∧ p2.target = a ∧
      onReply X s2 msg2 (some r2) p2 = some s3 ∧
      s3.snodes = [r2] ∧ s3.snodes.length = 1 := by
  -- the state after the supernode was authorized
  have h0 : (SupernodeHunter_addSnode X
      (SupernodeHunter_new X (peer :: peers) myAddress) S).2
      = { SupernodeHunter_new X (peer :: peers) myAddress with snodeAddrs := [S] } := by
    have hidx : ¬ snodeIndexOf (SupernodeHunter_new X (peer :: peers) myAddress) S ≠ -1 :=
      not_not.mpr rfl
    unfold SupernodeHunter_addSnode
    rw [if_neg (not_not.mpr hS), if_neg hidx]
    rfl
  rw [h0]
  -- the first timer callback
  have hstep1 : pingCycle X (fuel + 1)
      { SupernodeHunter_new X (peer :: peers) myAddress with snodeAddrs := [S] }
      = Outcome.returned
        ({ SupernodeHunter_new X (peer :: peers) myAddress with
            snodeAddrs := [S], nodeListIndex := 1 },
         [{ target := peer
            msg := Dict_putStringC (Dict_putStringCC Dict_new "q" "fn") "tar" S.address
            userData := { searchTar := some S, isGetRoute := false } }]) := by
    have hassert : ¬ (Sockaddr_getAddress S).1 ≠ 16 := by
      unfold Sockaddr_getAddress
      rw [hS16]
      exact fun h => h rfl
    have htake : List.take 16 (Sockaddr_getAddress S).2 = S.address :=
      List.take_of_length_le (Nat.le_of_eq hS16)
    have hloop : pingCycle_loop (peer :: peers) [] (fuel + 1) 0 0 = some (peer, 0) := by
      rw [pingCycle_loop, dif_pos (show 0 < (peer :: peers).length from Nat.succ_pos _)]
      rfl
    unfold pingCycle SupernodeHunter_new
    simp only [List.length_nil, List.length_singleton, gt_iff_lt, Nat.not_lt_zero,
      if_false, ne_eq, not_true_eq_false, dite_false, Nat.one_ne_zero,
      Nat.zero_shiftRight, hloop]
    rw [if_neg (by decide)]
    simp only [Nat.mod_one, List.get_eq_getElem, List.getElem_cons_zero, Sockaddr_clone]
    rw [if_neg hassert, htake]
    rfl
  -- the reply with the one matching address
  have hreply1 : onReply X
      { SupernodeHunter_new X (peer :: peers) myAddress with
          snodeAddrs := [S], nodeListIndex := 1 }
      msg1 (some r1)
      { target := peer
        msg := Dict_putStringC (Dict_putStringCC Dict_new "q" "fn") "tar" S.address
        userData := { searchTar := some S, isGetRoute := false } }
      = some { SupernodeHunter_new X (peer :: peers) myAddress with
          snodeAddrs := [S], nodeListIndex := 1, snodeCandidates := [a] } := by
    unfold onReply
    dsimp only
    simp only [Bool.false_eq_true, if_false]
    unfold onReply_parse
    rw [hparse]
    dsimp only
    rw [onReply_results_findNode _ S rfl hS16 results, foldl_findNode_filter, hone]
    rfl
  -- the second timer callback
  have hstep2 : pingCycle X fuel
      { SupernodeHunter_new X (peer :: peers) myAddress with
          snodeAddrs := [S], nodeListIndex := 1, snodeCandidates := [a] }
      = Outcome.returned
        ({ SupernodeHunter_new X (peer :: peers) myAddress with
            snodeAddrs := [S], nodeListIndex := 1, snodeCandidates := [a] },
         [{ target := a
            msg := Dict_putStringC (Dict_putStringC (Dict_putStringCC Dict_new "q" "gr")
              "src" (X.Key_stringify myAddress.key)) "tar" (X.Key_stringify a.key)
            userData := { searchTar := none, isGetRoute := true } }]) := by
    unfold pingCycle SupernodeHunter_new
    simp only [List.length_nil, List.length_singleton, gt_iff_lt, Nat.not_lt_zero,
      if_false, ne_eq, not_true_eq_false, dite_false, Nat.one_ne_zero, not_false_eq_true,
      dite_true]
    rfl
  -- the reply that confirms the route
  have hlen1 : ¬ l.length ≠ 20 := not_not.mpr hlen
  obtain ⟨s3, hs3, -, hsn, -, -⟩ := onReply_parse_getPeers X
    { searchTar := none, isGetRoute := true } rfl
    { SupernodeHunter_new X (peer :: peers) myAddress with
        snodeAddrs := [S], nodeListIndex := 1, snodeCandidates := [a]
        snodes := AddrSet_add [] r2 }
    msg2 r2
  have hreply2 : onReply X
      { SupernodeHunter_new X (peer :: peers) myAddress with
          snodeAddrs := [S], nodeListIndex := 1, snodeCandidates := [a] }
      msg2 (some r2)
      { target := a
        msg := Dict_putStringC (Dict_putStringC (Dict_putStringCC Dict_new "q" "gr")
          "src" (X.Key_stringify myAddress.key)) "tar" (X.Key_stringify a.key)
        userData := { searchTar := none, isGetRoute := true } }
      = some s3 := by
    unfold onReply
    dsimp only
    simp only [if_true]
    rw [herr]
    dsimp only
    rw [hlabel]
    dsimp only
    rw [if_neg hlen1, hpath]
    dsimp only
    rw [if_pos ⟨rfl, hsame⟩]
    exact hs3
  have hsn1 : s3.snodes = [r2] := hsn
  exact ⟨_, _, _, _, s3, hstep1, rfl, rfl, hreply1, rfl, rfl, hstep2, rfl, rfl, hreply2,
    hsn1, by rw [hsn1]; rfl⟩

end SupernodeHunter

namespace SupernodeHunter

/-! ## The later claims evaluated on the sample engine -/

/-- C11, on the constructed sample engine for `snodeA` then `snodeB`, and on the sample
engine that holds `snodeA` for `snodeB`. -/
theorem listSnodes_after_addSnode_witness :
    SupernodeHunter_listSnodes
        (SupernodeHunter_addSnode Sample.ext1
          (SupernodeHunter_addSnode Sample.ext1
            (SupernodeHunter_new Sample.ext1 [Sample.peer] Sample.me) Sample.snodeA).2
          Sample.snodeB).2
      = (2, [Sample.snodeA, Sample.snodeB]) ∧
    SupernodeHunter_listSnodes (SupernodeHunter_addSnode Sample.ext1 Sample.hunter1
        Sample.snodeB).2
      = ((SupernodeHunter_listSnodes Sample.hunter1).1 + 1,
         (SupernodeHunter_listSnodes Sample.hunter1).2 ++ [Sample.snodeB]) :=
  ⟨(listSnodes_after_addSnode Sample.ext1
      (SupernodeHunter_new Sample.ext1 [Sample.peer] Sample.me) Sample.snodeA
      Sample.snodeB).1 rfl (by decide) (by decide) (by decide),
   (listSnodes_after_addSnode Sample.ext1 Sample.hunter1 Sample.snodeB Sample.snodeB).2
      (by decide) (by decide) (by decide)⟩

/-- C12, on the sample engine with three authorized supernodes, for the second one. -/
theorem removeSnode_spec_witness :
    ((SupernodeHunter_removeSnode Sample.ext1 Sample.hunterABC Sample.snodeB).1
        = Sample.ext1.SupernodeHunter_removeSnode_NONEXISTANT
      ↔ ∀ sa ∈ Sample.hunterABC.snodeAddrs, Sockaddr_compare sa Sample.snodeB ≠ 0) ∧
    ((∀ sa ∈ Sample.hunterABC.snodeAddrs, Sockaddr_compare sa Sample.snodeB ≠ 0) →
      SupernodeHunter_removeSnode Sample.ext1 Sample.hunterABC Sample.snodeB
        = (Sample.ext1.SupernodeHunter_removeSnode_NONEXISTANT, Sample.hunterABC)) ∧
    ((∃ sa ∈ Sample.hunterABC.snodeAddrs, Sockaddr_compare sa Sample.snodeB = 0) →
      ∃ (l1 l2 : List Sockaddr) (e : Sockaddr),
        Sample.hunterABC.snodeAddrs = l1 ++ e :: l2 ∧ Sockaddr_compare e Sample.snodeB = 0 ∧
        (∀ sa ∈ l1, Sockaddr_compare sa Sample.snodeB ≠ 0) ∧
        SupernodeHunter_removeSnode Sample.ext1 Sample.hunterABC Sample.snodeB
          = (0, { Sample.hunterABC with snodeAddrs := l1 ++ l2 })) :=
  removeSnode_spec Sample.ext1 Sample.hunterABC Sample.snodeB (by decide)

/-- C13, on the sample engine with three authorized supernodes, for the second one. -/
theorem registry_uniqueness_invariant_witness :
    Sample.hunterABC.snodeAddrs.Pairwise
      (fun a b => Sockaddr_compare a b ≠ 0 ∧ Sockaddr_compare b a ≠ 0) ∧
    ((SupernodeHunter_removeSnode Sample.ext1 Sample.hunterABC Sample.snodeB).1 = 0 →
      (∀ sa ∈ (SupernodeHunter_removeSnode Sample.ext1 Sample.hunterABC
          Sample.snodeB).2.snodeAddrs, Sockaddr_compare sa Sample.snodeB ≠ 0) ∧
      SupernodeHunter_addSnode Sample.ext1
          (SupernodeHunter_removeSnode Sample.ext1 Sample.hunterABC Sample.snodeB).2
          Sample.snodeB
        = (0, { (SupernodeHunter_removeSnode Sample.ext1 Sample.hunterABC Sample.snodeB).2 with
                snodeAddrs := (SupernodeHunter_removeSnode Sample.ext1 Sample.hunterABC
                  Sample.snodeB).2.snodeAddrs ++ [Sample.snodeB] })) :=
  registry_uniqueness_invariant Sample.ext1 Sample.hunterABC Sample.snodeB
    (Reachable.addSnode Sample.snodeC (Reachable.addSnode Sample.snodeB
      (Reachable.addSnode Sample.snodeA (Reachable.constructed [Sample.peer] Sample.me))))
    (by decide)

/-- C14, on the sample engine for a getPeers reply that lists the engine's own address. -/
theorem getPeers_self_filtering_witness :
    ∃ snp1, onReply (Sample.ext [Sample.me, Sample.found 21]) Sample.hunter2 Sample.fnReply
        (some Sample.peer) Sample.gpQuery = some snp1 ∧
      snp1.myAddress = Sample.hunter2.myAddress ∧
      (∀ a ∈ snp1.nodes,
        a ∈ Sample.hunter2.nodes ∨ Address_isSameIp a Sample.hunter2.myAddress = false) ∧
      ((∀ a ∈ Sample.hunter2.nodes, Address_isSameIp a Sample.hunter2.myAddress = false) →
        ∀ a ∈ snp1.nodes, Address_isSameIp a snp1.myAddress = false) :=
  getPeers_self_filtering (Sample.ext [Sample.me, Sample.found 21]) Sample.hunter2
    Sample.fnReply (some Sample.peer) Sample.gpQuery rfl

/-- C15, refuted as stated.  With every pool empty, the peer set included, the first timer
callback has no address to send to and never returns; a findNode reply that lists the
supernode's address over two paths leaves two candidates; and a getRoute reply whose label
parses to the responder's path, from the very candidate, but with an `error` entry, leaves
the confirmed pool empty. -/
theorem end_to_end_scenario_counterexample :
    (∀ fuel : Nat,
      pingCycle Sample.ext1 fuel
          (SupernodeHunter_addSnode Sample.ext1
            (SupernodeHunter_new Sample.ext1 [] Sample.me) Sample.snodeA).2
        = Outcome.running) ∧
    (Sample.ext2.ReplySerializer_parse Sample.peer Sample.fnReply
        = some [Sample.found 21, Sample.found 22] ∧
      (Sample.found 21).ip6 = Sample.snodeA.address ∧
      (onReply Sample.ext2 Sample.hunter2 Sample.fnReply (some Sample.peer)
          Sample.fnQuery).map (fun s => s.snodeCandidates.length) = some 2) ∧
    (Sample.ext1.AddrTools_parsePath Sample.label15 = some (Sample.found 21).path ∧
      Address_isSame (Sample.found 21) (Sample.grQuery 21).target = true ∧
      (onReply Sample.ext1 Sample.hunter3 Sample.grReplyWithError (some (Sample.found 21))
          (Sample.grQuery 21)).map (fun s => s.snodes.length) = some 0) := by
  refine ⟨?_, by decide, by decide⟩
  intro fuel
  rw [pingCycle, if_neg (by decide), dif_neg (by decide)]
  simp only [dif_neg (show ¬ (SupernodeHunter_addSnode Sample.ext1
    (SupernodeHunter_new Sample.ext1 [] Sample.me) Sample.snodeA).2.snodeCandidates.length ≠ 0
    from by decide)]
  have hp : (SupernodeHunter_addSnode Sample.ext1
      (SupernodeHunter_new Sample.ext1 [] Sample.me) Sample.snodeA).2.peers = [] := by decide
  have hn : (SupernodeHunter_addSnode Sample.ext1
      (SupernodeHunter_new Sample.ext1 [] Sample.me) Sample.snodeA).2.nodes = [] := by decide
  rw [hp, hn, pingCycle_loop_empty]

/-- C15, as amended, on the sample engine: one peer, the supernode `snodeA`, a findNode reply
that lists it once and a getRoute reply with the label of its path. -/
theorem end_to_end_scenario_witness :
    ∃ (p1 p2 : MsgCore_Promise) (s1 s2 s3 : SupernodeHunter_pvt),
      pingCycle Sample.ext1 (0 + 1)
          (SupernodeHunter_addSnode Sample.ext1
            (SupernodeHunter_new Sample.ext1 (Sample.peer :: []) Sample.me) Sample.snodeA).2
        = Outcome.returned (s1, [p1]) ∧
      Dict_getStringC p1.msg "q" = some (cstr "fn") ∧ p1.target = Sample.peer ∧
      onReply Sample.ext1 s1 Sample.fnReply (some Sample.peer) p1 = some s2 ∧
      s2.snodeCandidates = [Sample.found 21] ∧ s2.snodeCandidates.length = 1 ∧
      pingCycle Sample.ext1 0 s2 = Outcome.returned (s2, [p2]) ∧
      Dict_getStringC p2.msg "q" = some (cstr "gr") ∧ p2.target = Sample.found 21 ∧
      onReply Sample.ext1 s2 Sample.grReply15 (some (Sample.found 21)) p2 = some s3 ∧
      s3.snodes = [Sample.found 21] ∧ s3.snodes.length = 1 :=
  end_to_end_scenario Sample.ext1 0 Sample.peer [] Sample.me Sample.snodeA Sample.fnReply
    Sample.grReply15 Sample.peer (Sample.found 21) (Sample.found 21) [Sample.found 21]
    Sample.label15 (by decide) (by decide) (by decide) (by decide) (by decide) (by decide)
    (by decide) (by decide) (by decide)

/-- C16, on the sample engine with three authorized supernodes at its first cycle. -/
theorem pingCycle_discovery_step_witness :
    ∃ p : MsgCore_Promise,
      pingCycle Sample.ext1 1 Sample.hunterABC = Outcome.returned
        ({ Sample.hunterABC with
            nodeListIndex := (Sample.hunterABC.nodeListIndex + 1) % 2 ^ 32
            snodeAddrIdx := (Sample.hunterABC.snodeAddrIdx
              + (Sample.hunterABC.nodeListIndex >>> 1)
                / (Sample.hunterABC.peers.length + Sample.hunterABC.nodes.length)) % 2 ^ 32 },
         [p]) ∧
      (Sample.hunterABC.peers ++ Sample.hunterABC.nodes)[
          (Sample.hunterABC.nodeListIndex >>> 1)
            % (Sample.hunterABC.peers.length + Sample.hunterABC.nodes.length)]?
        = some p.target :=
  pingCycle_discovery_step Sample.ext1 1 Sample.hunterABC (by decide) (by decide) (by decide)
    (by decide) (by decide) (by decide) (by decide)

/-- C17, on the sample engine with three authorized supernodes at its first cycle. -/
theorem pingCycle_discovery_query_witness :
    ∃ (p : MsgCore_Promise) (snp1 : SupernodeHunter_pvt) (desiredSnode : Sockaddr),
      pingCycle Sample.ext1 1 Sample.hunterABC = Outcome.returned (snp1, [p]) ∧
      snp1.snodeAddrIdx = (Sample.hunterABC.snodeAddrIdx
        + (Sample.hunterABC.nodeListIndex >>> 1)
          / (Sample.hunterABC.peers.length + Sample.hunterABC.nodes.length)) % 2 ^ 32 ∧
      Sample.hunterABC.snodeAddrs[snp1.snodeAddrIdx % Sample.hunterABC.snodeAddrs.length]?
        = some desiredSnode ∧
      desiredSnode.address.length = 16 ∧
      p.userData.isGetRoute = false ∧
      (Sample.hunterABC.nodeListIndex % 2 = 1 →
        Dict_getStringC p.msg "q" = some (cstr "gp") ∧
        Dict_getStringC p.msg "tar" = some [0, 0, 0, 0, 0, 0, 0, 1] ∧
        p.userData.searchTar = none) ∧
      (Sample.hunterABC.nodeListIndex % 2 = 0 →
        Dict_getStringC p.msg "q" = some (cstr "fn") ∧
        Dict_getStringC p.msg "tar" = some desiredSnode.address ∧
        p.userData.searchTar = some desiredSnode) :=
  pingCycle_discovery_query Sample.ext1 1 Sample.hunterABC (by decide) (by decide)
    (by decide) (by decide) (by decide) (by decide) (by decide)

/-- C18, on the sample engine: the getRoute reply with the label of the candidate's path,
and a findNode reply. -/
theorem onReply_getRoute_classification_witness :
    (∃ snp1, onReply Sample.ext1 Sample.hunter3 Sample.grReply15 (some (Sample.found 21))
        (Sample.grQuery 21) = some snp1 ∧
      (((Sample.found 21).path = 21 ∧
          Address_isSame (Sample.found 21) (Sample.grQuery 21).target = true) →
        snp1.snodes = AddrSet_add Sample.hunter3.snodes (Sample.found 21) ∧
        snp1.snodeCandidates = Sample.hunter3.snodeCandidates) ∧
      (¬ ((Sample.found 21).path = 21 ∧
          Address_isSame (Sample.found 21) (Sample.grQuery 21).target = true) →
        snp1.snodes = Sample.hunter3.snodes ∧
        snp1.snodeCandidates = AddrSet_add Sample.hunter3.snodeCandidates
          { Sample.found 21 with path := 21 })) ∧
    (∀ (src : Option Address) (snp1 : SupernodeHunter_pvt),
      onReply Sample.ext1 Sample.hunter2 Sample.fnReply src Sample.fnQuery = some snp1 →
      snp1.snodes = Sample.hunter2.snodes) :=
  ⟨(onReply_getRoute_classification Sample.ext1 Sample.hunter3 Sample.grReply15
      (Sample.grQuery 21)).1 rfl rfl (Sample.found 21) Sample.label15 21 (by decide)
      (by decide) (by decide) (by decide),
   (onReply_getRoute_classification Sample.ext1 Sample.hunter2 Sample.fnReply
      Sample.fnQuery).2 rfl⟩

/-- C19, on the sample engine for a findNode reply that lists the supernode over eight
paths. -/
theorem onReply_findNode_filtering_witness :
    onReply Sample.ext8 Sample.hunter2 Sample.fnReply (some Sample.peer) Sample.fnQuery
      = some { Sample.hunter2 with
        snodeCandidates :=
          ((Sample.ext8.ReplySerializer_parse Sample.peer Sample.fnReply).getD []).foldl
            (fun cands e =>
              if e.ip6.take 16 = Sample.snodeA.address.take 16 then
                AddrSet_add (if cands.length ≥ 8 then AddrSet_flush cands else cands) e
              else cands)
            Sample.hunter2.snodeCandidates } :=
  onReply_findNode_filtering Sample.ext8 Sample.hunter2 Sample.fnReply Sample.peer
    Sample.fnQuery Sample.snodeA rfl rfl (by decide)

end SupernodeHunter
